import Mathlib

/-!
# pegomock: output layout, matcher exclusion and reflection-based model extraction

A shallow embedding of `pegomock/filehandling/filehandling.go` and
`modelgen/gomock/reflect.go`.

Go strings are modelled as lists of characters (`Str`); all strings are taken
to be valid UTF-8.  The path functions of `path/filepath` are modelled for a
host whose separator is `/`.
-/

namespace Pegomock

/-- Go `string`, as the list of its runes. -/
abbrev Str := List Char

/-! ## `strings` -/

/-- Go `strings.HasSuffix`. -/
def HasSuffix (s suffix : Str) : Bool :=
  suffix.length ≤ s.length && s.drop (s.length - suffix.length) == suffix

/-- Go `strings.TrimSuffix`: `s[:len(s)-len(suffix)]` when `s` ends in `suffix`, else `s`. -/
def TrimSuffix (s suffix : Str) : Str :=
  if HasSuffix s suffix then s.take (s.length - suffix.length) else s

/-- The simple lower-case mapping of the Unicode Character Database (version 15.0.0,
the version of the tables of the Go `unicode` package since Go 1.21), as ranges
`(lo, hi, stride, target)`: the code points `lo, lo + stride, ..., hi` are mapped to
`target, target + stride, ...`; every other code point is its own lower case. -/
def lowerRanges : List (Nat × Nat × Nat × Nat) :=
  [(0x41, 0x5A, 1, 0x61), (0xC0, 0xD6, 1, 0xE0), (0xD8, 0xDE, 1, 0xF8), (0x100, 0x12E, 2, 0x101),
   (0x130, 0x130, 1, 0x69), (0x132, 0x136, 2, 0x133), (0x139, 0x147, 2, 0x13A),
   (0x14A, 0x176, 2, 0x14B), (0x178, 0x178, 1, 0xFF), (0x179, 0x17D, 2, 0x17A),
   (0x181, 0x181, 1, 0x253), (0x182, 0x184, 2, 0x183), (0x186, 0x186, 1, 0x254),
   (0x187, 0x187, 1, 0x188), (0x189, 0x18A, 1, 0x256), (0x18B, 0x18B, 1, 0x18C),
   (0x18E, 0x18E, 1, 0x1DD), (0x18F, 0x18F, 1, 0x259), (0x190, 0x190, 1, 0x25B),
   (0x191, 0x191, 1, 0x192), (0x193, 0x193, 1, 0x260), (0x194, 0x194, 1, 0x263),
   (0x196, 0x196, 1, 0x269), (0x197, 0x197, 1, 0x268), (0x198, 0x198, 1, 0x199),
   (0x19C, 0x19C, 1, 0x26F), (0x19D, 0x19D, 1, 0x272), (0x19F, 0x19F, 1, 0x275),
   (0x1A0, 0x1A4, 2, 0x1A1), (0x1A6, 0x1A6, 1, 0x280), (0x1A7, 0x1A7, 1, 0x1A8),
   (0x1A9, 0x1A9, 1, 0x283), (0x1AC, 0x1AC, 1, 0x1AD), (0x1AE, 0x1AE, 1, 0x288),
   (0x1AF, 0x1AF, 1, 0x1B0), (0x1B1, 0x1B2, 1, 0x28A), (0x1B3, 0x1B5, 2, 0x1B4),
   (0x1B7, 0x1B7, 1, 0x292), (0x1B8, 0x1B8, 1, 0x1B9), (0x1BC, 0x1BC, 1, 0x1BD),
   (0x1C4, 0x1C4, 1, 0x1C6), (0x1C5, 0x1C5, 1, 0x1C6), (0x1C7, 0x1C7, 1, 0x1C9),
   (0x1C8, 0x1C8, 1, 0x1C9), (0x1CA, 0x1CA, 1, 0x1CC), (0x1CB, 0x1DB, 2, 0x1CC),
   (0x1DE, 0x1EE, 2, 0x1DF), (0x1F1, 0x1F1, 1, 0x1F3), (0x1F2, 0x1F4, 2, 0x1F3),
   (0x1F6, 0x1F6, 1, 0x195), (0x1F7, 0x1F7, 1, 0x1BF), (0x1F8, 0x21E, 2, 0x1F9),
   (0x220, 0x220, 1, 0x19E), (0x222, 0x232, 2, 0x223), (0x23A, 0x23A, 1, 0x2C65),
   (0x23B, 0x23B, 1, 0x23C), (0x23D, 0x23D, 1, 0x19A), (0x23E, 0x23E, 1, 0x2C66),
   (0x241, 0x241, 1, 0x242), (0x243, 0x243, 1, 0x180), (0x244, 0x244, 1, 0x289),
   (0x245, 0x245, 1, 0x28C), (0x246, 0x24E, 2, 0x247), (0x370, 0x372, 2, 0x371),
   (0x376, 0x376, 1, 0x377), (0x37F, 0x37F, 1, 0x3F3), (0x386, 0x386, 1, 0x3AC),
   (0x388, 0x38A, 1, 0x3AD), (0x38C, 0x38C, 1, 0x3CC), (0x38E, 0x38F, 1, 0x3CD),
   (0x391, 0x3A1, 1, 0x3B1), (0x3A3, 0x3AB, 1, 0x3C3), (0x3CF, 0x3CF, 1, 0x3D7),
   (0x3D8, 0x3EE, 2, 0x3D9), (0x3F4, 0x3F4, 1, 0x3B8), (0x3F7, 0x3F7, 1, 0x3F8),
   (0x3F9, 0x3F9, 1, 0x3F2), (0x3FA, 0x3FA, 1, 0x3FB), (0x3FD, 0x3FF, 1, 0x37B),
   (0x400, 0x40F, 1, 0x450), (0x410, 0x42F, 1, 0x430), (0x460, 0x480, 2, 0x461),
   (0x48A, 0x4BE, 2, 0x48B), (0x4C0, 0x4C0, 1, 0x4CF), (0x4C1, 0x4CD, 2, 0x4C2),
   (0x4D0, 0x52E, 2, 0x4D1), (0x531, 0x556, 1, 0x561), (0x10A0, 0x10C5, 1, 0x2D00),
   (0x10C7, 0x10C7, 1, 0x2D27), (0x10CD, 0x10CD, 1, 0x2D2D), (0x13A0, 0x13EF, 1, 0xAB70),
   (0x13F0, 0x13F5, 1, 0x13F8), (0x1C90, 0x1CBA, 1, 0x10D0), (0x1CBD, 0x1CBF, 1, 0x10FD),
   (0x1E00, 0x1E94, 2, 0x1E01), (0x1E9E, 0x1E9E, 1, 0xDF), (0x1EA0, 0x1EFE, 2, 0x1EA1),
   (0x1F08, 0x1F0F, 1, 0x1F00), (0x1F18, 0x1F1D, 1, 0x1F10), (0x1F28, 0x1F2F, 1, 0x1F20),
   (0x1F38, 0x1F3F, 1, 0x1F30), (0x1F48, 0x1F4D, 1, 0x1F40), (0x1F59, 0x1F5F, 2, 0x1F51),
   (0x1F68, 0x1F6F, 1, 0x1F60), (0x1F88, 0x1F8F, 1, 0x1F80), (0x1F98, 0x1F9F, 1, 0x1F90),
   (0x1FA8, 0x1FAF, 1, 0x1FA0), (0x1FB8, 0x1FB9, 1, 0x1FB0), (0x1FBA, 0x1FBB, 1, 0x1F70),
   (0x1FBC, 0x1FBC, 1, 0x1FB3), (0x1FC8, 0x1FCB, 1, 0x1F72), (0x1FCC, 0x1FCC, 1, 0x1FC3),
   (0x1FD8, 0x1FD9, 1, 0x1FD0), (0x1FDA, 0x1FDB, 1, 0x1F76), (0x1FE8, 0x1FE9, 1, 0x1FE0),
   (0x1FEA, 0x1FEB, 1, 0x1F7A), (0x1FEC, 0x1FEC, 1, 0x1FE5), (0x1FF8, 0x1FF9, 1, 0x1F78),
   (0x1FFA, 0x1FFB, 1, 0x1F7C), (0x1FFC, 0x1FFC, 1, 0x1FF3), (0x2126, 0x2126, 1, 0x3C9),
   (0x212A, 0x212A, 1, 0x6B), (0x212B, 0x212B, 1, 0xE5), (0x2132, 0x2132, 1, 0x214E),
   (0x2160, 0x216F, 1, 0x2170), (0x2183, 0x2183, 1, 0x2184), (0x24B6, 0x24CF, 1, 0x24D0),
   (0x2C00, 0x2C2F, 1, 0x2C30), (0x2C60, 0x2C60, 1, 0x2C61), (0x2C62, 0x2C62, 1, 0x26B),
   (0x2C63, 0x2C63, 1, 0x1D7D), (0x2C64, 0x2C64, 1, 0x27D), (0x2C67, 0x2C6B, 2, 0x2C68),
   (0x2C6D, 0x2C6D, 1, 0x251), (0x2C6E, 0x2C6E, 1, 0x271), (0x2C6F, 0x2C6F, 1, 0x250),
   (0x2C70, 0x2C70, 1, 0x252), (0x2C72, 0x2C72, 1, 0x2C73), (0x2C75, 0x2C75, 1, 0x2C76),
   (0x2C7E, 0x2C7F, 1, 0x23F), (0x2C80, 0x2CE2, 2, 0x2C81), (0x2CEB, 0x2CED, 2, 0x2CEC),
   (0x2CF2, 0x2CF2, 1, 0x2CF3), (0xA640, 0xA66C, 2, 0xA641), (0xA680, 0xA69A, 2, 0xA681),
   (0xA722, 0xA72E, 2, 0xA723), (0xA732, 0xA76E, 2, 0xA733), (0xA779, 0xA77B, 2, 0xA77A),
   (0xA77D, 0xA77D, 1, 0x1D79), (0xA77E, 0xA786, 2, 0xA77F), (0xA78B, 0xA78B, 1, 0xA78C),
   (0xA78D, 0xA78D, 1, 0x265), (0xA790, 0xA792, 2, 0xA791), (0xA796, 0xA7A8, 2, 0xA797),
   (0xA7AA, 0xA7AA, 1, 0x266), (0xA7AB, 0xA7AB, 1, 0x25C), (0xA7AC, 0xA7AC, 1, 0x261),
   (0xA7AD, 0xA7AD, 1, 0x26C), (0xA7AE, 0xA7AE, 1, 0x26A), (0xA7B0, 0xA7B0, 1, 0x29E),
   (0xA7B1, 0xA7B1, 1, 0x287), (0xA7B2, 0xA7B2, 1, 0x29D), (0xA7B3, 0xA7B3, 1, 0xAB53),
   (0xA7B4, 0xA7C2, 2, 0xA7B5), (0xA7C4, 0xA7C4, 1, 0xA794), (0xA7C5, 0xA7C5, 1, 0x282),
   (0xA7C6, 0xA7C6, 1, 0x1D8E), (0xA7C7, 0xA7C9, 2, 0xA7C8), (0xA7D0, 0xA7D0, 1, 0xA7D1),
   (0xA7D6, 0xA7D8, 2, 0xA7D7), (0xA7F5, 0xA7F5, 1, 0xA7F6), (0xFF21, 0xFF3A, 1, 0xFF41),
   (0x10400, 0x10427, 1, 0x10428), (0x104B0, 0x104D3, 1, 0x104D8),
   (0x10570, 0x1057A, 1, 0x10597), (0x1057C, 0x1058A, 1, 0x105A3),
   (0x1058C, 0x10592, 1, 0x105B3), (0x10594, 0x10595, 1, 0x105BB),
   (0x10C80, 0x10CB2, 1, 0x10CC0), (0x118A0, 0x118BF, 1, 0x118C0),
   (0x16E40, 0x16E5F, 1, 0x16E60), (0x1E900, 0x1E921, 1, 0x1E922)]

/-- Go `unicode.ToLower` on a code point: the image under the range that holds it. -/
def toLowerNat (n : Nat) : Nat :=
  match lowerRanges.find?
      (fun r => decide (r.1 ≤ n) && decide (n ≤ r.2.1) && (n - r.1) % r.2.2.1 == 0) with
  | some r => r.2.2.2 + (n - r.1)
  | none => n

/-- Go `unicode.ToLower` on one rune. -/
def toLowerRune (c : Char) : Char := Char.ofNat (toLowerNat c.toNat)

/-- Go `strings.ToLower`: the rune-wise lower-casing of `s`. -/
def ToLower (s : Str) : Str := s.map toLowerRune

/-- Go `unicode.IsSpace`: the Latin-1 cases `\t \n \v \f \r`, space, U+0085, U+00A0,
and the `White_Space` table above Latin-1. -/
def isSpace (c : Char) : Bool :=
  let n := c.toNat
  (0x09 ≤ n && n ≤ 0x0D) || n == 0x20 || n == 0x85 || n == 0xA0 || n == 0x1680 ||
  (0x2000 ≤ n && n ≤ 0x200A) || n == 0x2028 || n == 0x2029 || n == 0x202F ||
  n == 0x205F || n == 0x3000

/-- Go `strings.TrimSpace`: all leading and trailing white space removed. -/
def TrimSpace (s : Str) : Str :=
  ((s.dropWhile isSpace).reverse.dropWhile isSpace).reverse

/-- Go `strings.Split(s, sep)` for a separator of one rune: the pieces of `s`
between the occurrences of `sep`; always at least one piece. -/
def Split : Str → Char → List Str
  | [], _ => [[]]
  | c :: cs, sep =>
    if c = sep then [] :: Split cs sep
    else
      match Split cs sep with
      | [] => [[c]]
      | p :: ps => (c :: p) :: ps

/-- Go `strings.Join(elems, sep)`. -/
def strJoin (elems : List Str) (sep : Str) : Str := sep.intercalate elems

/-! ## `path/filepath` (separator `/`) -/

/-- The element loop of `filepath.Clean`: `acc` is the stack of elements kept so
far, innermost first.  Empty elements and `.` are skipped; `..` removes the last
real element, is kept in front of a relative path, and is dropped at the root. -/
def cleanElems (rooted : Bool) : List Str → List Str → List Str
  | [], acc => acc.reverse
  | e :: es, acc =>
    if e = [] ∨ e = ['.'] then cleanElems rooted es acc
    else if e = ['.', '.'] then
      match acc with
      | [] => if rooted then cleanElems rooted es [] else cleanElems rooted es [e]
      | top :: rest =>
        if top = ['.', '.'] then cleanElems rooted es (e :: top :: rest)
        else cleanElems rooted es rest
    else cleanElems rooted es (e :: acc)

/-- Go `filepath.Clean`. -/
def Clean (path : Str) : Str :=
  match path with
  | [] => ['.']
  | c :: _ =>
    let rooted : Bool := c = '/'
    let out := strJoin (cleanElems rooted (Split path '/') []) ['/']
    if rooted then '/' :: out
    else if out = [] then ['.'] else out

/-- Go `filepath.Join`: leading empty elements are ignored, the rest is joined
with the separator and cleaned; no non-empty element gives the empty string. -/
def Join (elem : List Str) : Str :=
  match elem.dropWhile (fun e => e = []) with
  | [] => []
  | es => Clean (strJoin es ['/'])

/-- Go `filepath.Dir`: the cleaned part of `path` up to its last separator. -/
def Dir (path : Str) : Str :=
  Clean (path.reverse.dropWhile (fun c => c ≠ '/')).reverse

/-! ## `filehandling.go`: pure part -/

/-- Modelled from the spec: `util.SourceMode` is not part of the sources at hand.
Source mode is one positional argument naming a Go source file (ending in `.go`).
The functions below take the mode test as a parameter; this definition is the
instance used for concrete inputs. -/
def SourceModeSpec (args : List Str) : Bool :=
  match args with
  | [a] => HasSuffix a ".go".toList
  | _ => false

/-- `OutputFilePath` of `filehandling.go`.  `none` is the run-time panic of an
index out of range (`args[0]` or `args[len(args)-1]` on an empty `args`). -/
def OutputFilePath (SourceMode : List Str → Bool) (args : List Str)
    (outputDirPath outputFilePathOverride : Str) : Option Str :=
  if outputFilePathOverride ≠ [] then
    some outputFilePathOverride
  else if SourceMode args then
    match args.head? with
    | none => none
    | some a0 =>
      some (Join [outputDirPath, "mock_".toList ++ TrimSuffix a0 ".go".toList ++ "_test.go".toList])
  else
    match args.getLast? with
    | none => none
    | some aLast =>
      some (Join [outputDirPath, "mock_".toList ++ ToLower aLast ++ "_test.go".toList])

/-- `matchersFilter` of `filehandling.go`.  The Go map with empty-struct values is
a set of keys; it is kept as the list of its keys, without repetition. -/
def matchersFilter (skipMatchers : Str) : List Str :=
  (Split skipMatchers ',').foldl
    (fun result m =>
      let matcher := TrimSpace m
      if matcher.length > 0 then
        (if matcher ∈ result then result else result ++ [matcher])
      else result)
    []

/-! ## `filehandling.go`: the orchestrator

The orchestrator acts on the outside world: it creates directories, writes files
and calls its collaborators (parser, loader, reflection extractor, code generator).
The world is explicit state: the list of the effects carried out so far, oldest first.
-/

/-- Modelled from the spec: the `model` package is not part of the sources at hand.
A method of an interface; its internals belong to the method-set walker. -/
abbrev Method := Str

/-- Modelled from the spec: `model.Interface`, a name and an ordered sequence of methods. -/
structure Interface where
  Name : Str
  Methods : List Method
  deriving DecidableEq, Repr

/-- Modelled from the spec: `model.Package`, a name and an ordered sequence of interfaces. -/
structure Package where
  Name : Str
  Interfaces : List Interface
  deriving DecidableEq, Repr

/-- An effect of the orchestrator on the outside world. -/
inductive Effect where
  /-- A successful `os.MkdirAll(path, 0755)`. -/
  | mkdirAll (path : Str)
  /-- A successful `ioutil.WriteFile(path, data, 0664)`. -/
  | writeFile (path : Str) (data : Str)
  /-- A call of `gomock.ParseFile(path)`. -/
  | parseFile (path : Str)
  /-- A call of `loader.GenerateModel(importPath, symbols)`. -/
  | generateModel (importPath symbols : Str)
  /-- A call of `gomock.Reflect(importPath, symbols, progPath, progOnly, outPath)`. -/
  | reflect (importPath : Str) (symbols : List Str) (progPath : Str) (progOnly : Bool)
      (outPath : Str)
  /-- A call of `ast.Print(out)`. -/
  | print (pkg : Package)
  /-- A call of `mockgen.GenerateOutput(ast, src, nameOut, packageOut, selfPackage)`. -/
  | generateOutput (pkg : Package) (src nameOut packageOut selfPackage : Str)
  deriving DecidableEq, Repr

/-- How a call ends. -/
inductive Outcome (α : Type) where
  /-- Normal return. -/
  | ok (v : α)
  /-- A `panic(fmt.Errorf(...))` with the given message. -/
  | panic (msg : Str)
  /-- The run-time panic of an index out of range. -/
  | indexPanic
  /-- A `log.Fatal(msg)`: the message is logged and the process exits with status 1. -/
  | fatal (msg : Str)
  /-- The process was ended by `os.Exit(code)` inside a collaborator. -/
  | exit (code : Nat)
  deriving DecidableEq, Repr

/-- The collaborators of the orchestrator and the behaviour of the file system.
`Reflect` answers `none` when the call ends the process (program-only mode).
`ioErr done e` is the error, if any, of attempting the file-system effect `e` after
the effects `done`. -/
structure Collaborators where
  SourceMode : List Str → Bool
  ParseFile : Str → Except Str Package
  GenerateModel : Str → Str → Except Str Package
  Reflect : Str → List Str → Str → Bool → Str → Option (Except Str Package)
  GenerateOutput : Package → Str → Str → Str → Str → Str × List (Str × Str)
  ioErr : List Effect → Effect → Option Str

/-- The named options of the orchestrator entry points, under their source names. -/
structure Options where
  nameOut : Str
  packageOut : Str
  selfPackage : Str
  debugParser : Bool
  useExperimentalModelGen : Bool
  shouldGenerateMatchers : Bool
  matchersDestination : Str
  skipMatchers : Str
  execOnly : Str
  progOnly : Bool

/-- Go `fmt.Sprint` of a slice of strings: the elements between brackets, separated
by one space. -/
def Sprint (args : List Str) : Str := '[' :: strJoin args [' '] ++ [']']

/-- The message of the usage error of `GenerateMockSourceCode`. -/
def usageError (args : List Str) : Str :=
  "Expected exactly two arguments, but got ".toList ++ Sprint args

/-- The tail of `GenerateMockSourceCode` once the model source has answered: the
error check, the debug hook and the call of the code generator. -/
def generateFromModel (c : Collaborators) (o : Options) (r : Except Str Package) (src : Str)
    (done : List Effect) : Outcome (Str × List (Str × Str)) × List Effect :=
  match r with
  | .error err => (.panic ("Loading input failed: ".toList ++ err), done)
  | .ok ast =>
    let done1 := if o.debugParser then done ++ [Effect.print ast] else done
    (.ok (c.GenerateOutput ast src o.nameOut o.packageOut o.selfPackage),
      done1 ++ [Effect.generateOutput ast src o.nameOut o.packageOut o.selfPackage])

/-- `GenerateMockSourceCode` of `filehandling.go`. -/
def GenerateMockSourceCode (c : Collaborators) (args : List Str) (o : Options)
    (outputPath : Str) (done : List Effect) :
    Outcome (Str × List (Str × Str)) × List Effect :=
  if c.SourceMode args then
    match args.head? with
    | none => (.indexPanic, done)
    | some a0 => generateFromModel c o (c.ParseFile a0) a0 (done ++ [Effect.parseFile a0])
  else
    match args with
    | [a0, a1] =>
      let src := a0 ++ " (interfaces: ".toList ++ a1 ++ ")".toList
      if o.useExperimentalModelGen then
        generateFromModel c o (c.GenerateModel a0 a1) src (done ++ [Effect.generateModel a0 a1])
      else
        let done1 := done ++ [Effect.reflect a0 (Split a1 ',') o.execOnly o.progOnly outputPath]
        match c.Reflect a0 (Split a1 ',') o.execOnly o.progOnly outputPath with
        | none => (.exit 0, done1)
        | some r => generateFromModel c o r src done1
    | _ => (.fatal (usageError args), done)

/-- The loop of `GenerateMockFile` over the matcher sources, in the order in which
the map is iterated. -/
def writeMatchers (c : Collaborators) (matchersPath : Str) (excludedMatchers : List Str) :
    List (Str × Str) → List Effect → Outcome Unit × List Effect
  | [], done => (.ok (), done)
  | (matcherTypeName, matcherSourceCode) :: rest, done =>
    if matcherTypeName ∈ excludedMatchers then
      writeMatchers c matchersPath excludedMatchers rest done
    else
      let e := Effect.writeFile (Join [matchersPath, matcherTypeName ++ ".go".toList])
        matcherSourceCode
      match c.ioErr done e with
      | some err => (.panic ("Failed writing to destination: ".toList ++ err), done)
      | none => writeMatchers c matchersPath excludedMatchers rest (done ++ [e])

/-- The matchers directory of `GenerateMockFile`. -/
def matchersDir (outputFilePath matchersDestination : Str) : Str :=
  if matchersDestination ≠ [] then matchersDestination
  else Join [Dir outputFilePath, "matchers".toList]

/-- `GenerateMockFile` of `filehandling.go`. -/
def GenerateMockFile (c : Collaborators) (args : List Str) (outputFilePath : Str) (o : Options)
    (done : List Effect) : Outcome Unit × List Effect :=
  match GenerateMockSourceCode c args o outputFilePath done with
  | (.ok (mockSourceCode, matcherSourceCodes), done1) =>
    match c.ioErr done1 (Effect.writeFile outputFilePath mockSourceCode) with
    | some err => (.panic ("Failed writing to destination: ".toList ++ err), done1)
    | none =>
      let done2 := done1 ++ [Effect.writeFile outputFilePath mockSourceCode]
      if o.shouldGenerateMatchers then
        let matchersPath := matchersDir outputFilePath o.matchersDestination
        match c.ioErr done2 (Effect.mkdirAll matchersPath) with
        | some err =>
          (.panic ("Failed making dirs \"".toList ++ matchersPath ++ "\": ".toList ++ err), done2)
        | none =>
          writeMatchers c matchersPath (matchersFilter o.skipMatchers) matcherSourceCodes
            (done2 ++ [Effect.mkdirAll matchersPath])
      else (.ok (), done2)
  | (.panic msg, done1) => (.panic msg, done1)
  | (.indexPanic, done1) => (.indexPanic, done1)
  | (.fatal msg, done1) => (.fatal msg, done1)
  | (.exit code, done1) => (.exit code, done1)

/-- The call `GenerateMockFile(args, OutputFilePath(args, ...), ...)` that ends
`GenerateMockFileInOutputDir`: the output path is computed first. -/
def generateAtOutputFilePath (c : Collaborators) (args : List Str)
    (outputDirPath outputFilePathOverride : Str) (o : Options) (done : List Effect) :
    Outcome Unit × List Effect :=
  match OutputFilePath c.SourceMode args outputDirPath outputFilePathOverride with
  | none => (.indexPanic, done)
  | some outputFilePath => GenerateMockFile c args outputFilePath o done

/-- `GenerateMockFileInOutputDir` of `filehandling.go`. -/
def GenerateMockFileInOutputDir (c : Collaborators) (args : List Str)
    (outputDirPath outputFilePathOverride : Str) (o : Options) (done : List Effect) :
    Outcome Unit × List Effect :=
  if outputFilePathOverride ≠ [] then
    match c.ioErr done (Effect.mkdirAll (Dir outputFilePathOverride)) with
    | some err => (.panic ("Failed to make output directory, error: ".toList ++ err), done)
    | none =>
      generateAtOutputFilePath c args outputDirPath outputFilePathOverride o
        (done ++ [Effect.mkdirAll (Dir outputFilePathOverride)])
  else
    generateAtOutputFilePath c args outputDirPath outputFilePathOverride o done

/-! ## `reflect.go`: the reflection extractor

Paths are lists of components (the empty list is the empty path), so that
`filepath.Join(dir, name)` for a plain name is `dir ++ [name]`.  The file system is
explicit state; the build toolchain, the introspection binary, the template engine and
the gob decoder are collaborators of the host.
-/

/-- A file-system path as the list of its components. -/
abbrev Path := List Str

/-- What a path holds: a directory or a file with its content. -/
inductive Node where
  | dir
  | file (data : Str)
  deriving DecidableEq, Repr

/-- The file system: the existing paths and what they hold. -/
abbrev FS := List (Path × Node)

/-- Whether `p` exists in `fs`. -/
def fsExists (fs : FS) (p : Path) : Bool := fs.any (fun e => decide (e.1 = p))

/-- A successful `WriteFile(p, data)`: create or overwrite. -/
def fsWriteFile (fs : FS) (p : Path) (data : Str) : FS :=
  fs.filter (fun e => decide (e.1 ≠ p)) ++ [(p, Node.file data)]

/-- Whether `p` is `root` or lies below it. -/
def isUnder (root p : Path) : Bool := p.take root.length == root

/-- Go `os.RemoveAll(root)`: `root` and everything below it is removed. -/
def RemoveAll (root : Path) (fs : FS) : FS := fs.filter (fun e => !isUnder root e.1)

/-- The name of `p` when `p` is an entry of the directory `dir`. -/
def childName (dir p : Path) : Option Str :=
  if p.dropLast = dir then p.getLast? else none

/-- The listing of the directory `dir`. -/
def listing (fs : FS) (dir : Path) : List Str := fs.filterMap (fun e => childName dir e.1)

/-- A process started by `Reflect`. -/
inductive Proc where
  /-- The command `go args...` run with working directory `dir`. -/
  | go (dir : Path) (args : List Str)
  /-- The execution of the binary `prog` with no arguments. -/
  | run (prog : Path)
  deriving DecidableEq, Repr

/-- The outside world of `Reflect`. -/
structure World where
  fs : FS
  stdout : Str
  stderr : Str
  procs : List Proc
  deriving DecidableEq, Repr

/-- The result of the build command. `files` are the files it leaves in its working
directory (name and content). -/
structure BuildResult where
  err : Option Str
  stderr : Str
  files : List (Str × Str)

/-- The result of running a binary: its error, what it wrote to its standard output
and to its standard error. -/
structure RunResult where
  err : Option Str
  stdout : Str
  stderr : Str

/-- The host of `Reflect`: operating system, working directory, random names of
`ioutil.TempDir`, errors of directory creation and of file writes, the `%q` verb
(`strconv.Quote`), the error of the template engine, the build toolchain, the
execution of binaries and the gob decoder. -/
structure Host where
  GOOS : Str
  Getwd : Except Str Path
  nextRandom : Nat → Str
  mkdirErr : Path → Option Str
  writeFileErr : Path → Option Str
  quote : Str → Str
  executeErr : Option Str
  goBuild : Path → Str → BuildResult
  run : Path → FS → RunResult
  gobDecode : Str → Except Str Package

deriving instance DecidableEq for Except

/-- How a call of `Reflect` ends: by returning, or by `os.Exit`. -/
inductive Ending (α : Type) where
  | returned (v : α)
  | exited (code : Nat)
  deriving DecidableEq, Repr

/-- The attempts of `ioutil.TempDir`: the name `pfx + random` is tried in `dir` until
it does not exist yet, at most `fuel` times. -/
def tempDirLoop (h : Host) (dir : Path) (pfx : Str) (fs : FS) : Nat → Nat → Except Str Path
  | 0, _ => .error "mkdirtemp: file exists".toList
  | fuel + 1, try_ =>
    let name := dir ++ [pfx ++ h.nextRandom try_]
    if fsExists fs name then tempDirLoop h dir pfx fs fuel (try_ + 1)
    else
      match h.mkdirErr name with
      | some e => .error e
      | none => .ok name

/-- Go `ioutil.TempDir(dir, pfx)`: a new directory in `dir` whose name starts with
`pfx`; up to 10000 names are tried. -/
def TempDir (h : Host) (dir : Path) (pfx : Str) (fs : FS) : Except Str Path × FS :=
  match tempDirLoop h dir pfx fs 10000 0 with
  | .error e => (.error e, fs)
  | .ok name => (.ok name, fs ++ [(name, Node.dir)])

/-- The text of the template `reflectProgram` before the import path. -/
def programHead : Str :=
  ("\n" ++
    "package main\n" ++
    "\n" ++
    "import (\n" ++
    "\t\"encoding/gob\"\n" ++
    "\t\"fmt\"\n" ++
    "\t\"os\"\n" ++
    "\t\"path\"\n" ++
    "\t\"reflect\"\n" ++
    "\n" ++
    "\t\"github.com/petergtz/pegomock/model\"\n" ++
    "\t\"github.com/petergtz/pegomock/modelgen/gomock\"\n" ++
    "\n" ++
    "\tpkg_ ").toList

/-- The text of the template between the import path and the range over the symbols. -/
def programIts : Str :=
  ("\n" ++
    ")\n" ++
    "\n" ++
    "func main() \x7b\n" ++
    "\tits := []struct\x7b\n" ++
    "\t\tsym string\n" ++
    "\t\ttyp reflect.Type\n" ++
    "\t\x7d\x7b\n" ++
    "\t\t").toList

/-- The text that opens an entry of `its` in the body of `range .Symbols`. -/
def entryOpen : Str := ("\n" ++ "\t\t\x7b ").toList

/-- The text between the quoted symbol and the spliced symbol of an entry. -/
def entryMid : Str := ", reflect.TypeOf((*pkg_.".toList

/-- The text that closes an entry of `its`. -/
def entryClose : Str := (")(nil)).Elem()\x7d,\n" ++ "\t\t").toList

/-- The body of `range .Symbols` for one symbol: the symbol quoted as `sym` and
spliced into the type expression as it is. -/
def programSymbol (quote : Str → Str) (symbol : Str) : Str :=
  entryOpen ++ quote symbol ++ entryMid ++ symbol ++ entryClose

/-- The text of the template between the range and the package name. -/
def programPkg : Str :=
  ("\n" ++
    "\t\x7d\n" ++
    "\tpkg := &model.Package\x7b\n" ++
    "\t\t// NOTE: This behaves contrary to documented behaviour if the\n" ++
    "\t\t// package name is not the final component of the import path.\n" ++
    "\t\t// The reflect package doesn\x27t expose the package name, though.\n" ++
    "\t\tName: path.Base(").toList

/-- The text of the template after the package name. -/
def programTail : Str :=
  ("),\n" ++
    "\t\x7d\n" ++
    "\n" ++
    "\tfor _, it := range its \x7b\n" ++
    "\t\tintf, err := gomock.InterfaceFromInterfaceType(it.typ)\n" ++
    "\t\tif err != nil \x7b\n" ++
    "\t\t\tfmt.Fprintf(os.Stderr, \"Reflection: %v\\n\", err)\n" ++
    "\t\t\tos.Exit(1)\n" ++
    "\t\t\x7d\n" ++
    "\t\tintf.Name = it.sym\n" ++
    "\t\tpkg.Interfaces = append(pkg.Interfaces, intf)\n" ++
    "\t\x7d\n" ++
    "\tif err := gob.NewEncoder(os.Stdout).Encode(pkg); err != nil \x7b\n" ++
    "\t\tfmt.Fprintf(os.Stderr, \"gob encode: %v\\n\", err)\n" ++
    "\t\tos.Exit(1)\n" ++
    "\t\x7d\n" ++
    "\x7d\n").toList

/-- The template `reflectProgram` executed on `reflectData{ImportPath, Symbols}`. -/
def reflectProgram (quote : Str → Str) (importPath : Str) (symbols : List Str) : Str :=
  programHead ++ quote importPath ++ programIts ++
    (symbols.map (programSymbol quote)).flatten ++
    programPkg ++ quote importPath ++ programTail

/-- The end of `Reflect`: run the binary at `progPath` and decode its output. -/
def runAndDecode (h : Host) (progPath : Path) (w : World) : Except Str Package × World :=
  let r := h.run progPath w.fs
  let w1 : World :=
    { w with procs := w.procs ++ [Proc.run progPath], stderr := w.stderr ++ r.stderr }
  match r.err with
  | some e => (.error e, w1)
  | none =>
    match h.gobDecode r.stdout with
    | .error e => (.error e, w1)
    | .ok pkg => (.ok pkg, w1)

/-- The name of the binary: `prog.bin`, with `.exe` added on Windows. -/
def progBinary (h : Host) : Str :=
  if h.GOOS = "windows".toList then "prog.bin".toList ++ ".exe".toList else "prog.bin".toList

/-- The body of `Reflect` between the creation of the workspace `tmpDir` and the
return: program generation, program-only exit, build, run and decode. -/
def reflectInWorkspace (h : Host) (importPath : Str) (symbols : List Str) (progOnly : Bool)
    (outPath : Path) (tmpDir : Path) (w : World) : Ending (Except Str Package) × World :=
  match h.executeErr with
  | some e => (.returned (.error e), w)
  | none =>
    let program := reflectProgram h.quote importPath symbols
    if progOnly then
      if outPath ≠ [] then
        match h.writeFileErr outPath with
        | some e => (.returned (.error e), w)
        | none => (.exited 0, { w with fs := fsWriteFile w.fs outPath program })
      else (.exited 0, { w with stdout := w.stdout ++ program })
    else
      match h.writeFileErr (tmpDir ++ ["prog.go".toList]) with
      | some e => (.returned (.error e), w)
      | none =>
        let b := h.goBuild tmpDir program
        let w1 : World :=
          { w with
            fs := b.files.foldl (fun fs f => fsWriteFile fs (tmpDir ++ [f.1]) f.2)
              (fsWriteFile w.fs (tmpDir ++ ["prog.go".toList]) program),
            procs := w.procs ++
              [Proc.go tmpDir ["build".toList, "-o".toList, progBinary h, "prog.go".toList]] }
        match b.err with
        | some e => (.returned (.error (e ++ " caused by:\n".toList ++ b.stderr)), w1)
        | none =>
          match runAndDecode h (tmpDir ++ [progBinary h]) w1 with
          | (r, w2) => (.returned r, w2)

/-- `Reflect` of `reflect.go`.  The deferred `os.RemoveAll(tmpDir)` runs when the
function returns; it does not run when the process is ended by `os.Exit`. -/
def Reflect (h : Host) (importPath : Str) (symbols : List Str) (progPath : Path)
    (progOnly : Bool) (outPath : Path) (w : World) : Ending (Except Str Package) × World :=
  if progPath = [] then
    match h.Getwd with
    | .error e => (.returned (.error e), w)
    | .ok workingDir =>
      match TempDir h workingDir ".tmp_gomock_reflect_".toList w.fs with
      | (.error e, _) => (.returned (.error e), w)
      | (.ok tmpDir, fs1) =>
        match reflectInWorkspace h importPath symbols progOnly outPath tmpDir
            { w with fs := fs1 } with
        | (.exited code, w1) => (.exited code, w1)
        | (.returned r, w1) => (.returned r, { w1 with fs := RemoveAll tmpDir w1.fs })
  else
    match runAndDecode h progPath w with
    | (r, w1) => (.returned r, w1)

/-- Go `path.Base`: the last element of a slash-separated path, trailing slashes
removed; `.` for the empty path and `/` for a path of slashes only. -/
def pathBase (path : Str) : Str :=
  if path = [] then ['.']
  else
    let stripped := (path.reverse.dropWhile (fun c => c = '/')).reverse
    let last := (stripped.reverse.takeWhile (fun c => c ≠ '/')).reverse
    if last = [] then ['/'] else last

/-- The loop of the introspection program over `its`: each type is walked by
`gomock.InterfaceFromInterfaceType`, the interface is named after its symbol and
appended; the first error ends the program (message on standard error, status 1). -/
def collectInterfaces {τ : Type} (InterfaceFromInterfaceType : τ → Except Str Interface) :
    List (Str × τ) → List Interface → Except Str (List Interface)
  | [], acc => .ok acc
  | (sym, typ) :: rest, acc =>
    match InterfaceFromInterfaceType typ with
    | .error err => .error ("Reflection: ".toList ++ err ++ ['\n'])
    | .ok intf =>
      collectInterfaces InterfaceFromInterfaceType rest (acc ++ [{ intf with Name := sym }])

/-- The Go toolchain as far as the rendered program needs it: the reading of an
interpreted string literal at the start of a text (its value and the text after it),
the letters and digits of identifiers beyond ASCII, the named types of the importable
packages (`typeOf importPath name`), and `gomock.InterfaceFromInterfaceType`. -/
structure Toolchain (τ : Type) where
  unquote : Str → Option (Str × Str)
  isLetterExt : Char → Bool
  isDigitExt : Char → Bool
  typeOf : Str → Str → Option τ
  InterfaceFromInterfaceType : τ → Except Str Interface

/-- A letter of a Go identifier: `_`, an ASCII letter, or a letter beyond ASCII. -/
def isLetter {τ : Type} (tc : Toolchain τ) (c : Char) : Bool :=
  c.isAlpha || c == '_' || (decide (0x80 ≤ c.toNat) && tc.isLetterExt c)

/-- A character of a Go identifier: a letter or a digit. -/
def isIdentChar {τ : Type} (tc : Toolchain τ) (c : Char) : Bool :=
  isLetter tc c || c.isDigit || (decide (0x80 ≤ c.toNat) && tc.isDigitExt c)

/-- A Go identifier: a letter followed by letters and digits. -/
def isIdentifier {τ : Type} (tc : Toolchain τ) (s : Str) : Bool :=
  match s with
  | [] => false
  | c :: _ => isLetter tc c && s.all (isIdentChar tc)

/-- Read the text `lit` at the start of `text`; the answer is the text after it. -/
def expect : Str → Str → Option Str
  | [], text => some text
  | _ :: _, [] => none
  | c :: cs, d :: text => if c = d then expect cs text else none

/-- Read one entry `{ "sym", reflect.TypeOf((*pkg_.Name)(nil)).Elem()},` of `its`: the
value of the string literal and the identifier after `pkg_.`. -/
def parseEntry {τ : Type} (tc : Toolchain τ) (text : Str) : Option ((Str × Str) × Str) :=
  match expect entryOpen text with
  | none => none
  | some r1 =>
    match tc.unquote r1 with
    | none => none
    | some (sym, r2) =>
      match expect entryMid r2 with
      | none => none
      | some r3 =>
        if isIdentifier tc (r3.takeWhile (isIdentChar tc)) then
          match expect entryClose (r3.dropWhile (isIdentChar tc)) with
          | none => none
          | some r4 => some ((sym, r3.takeWhile (isIdentChar tc)), r4)
        else none

/-- Read the entries of `its`, as long as the text opens another entry. -/
def parseEntries {τ : Type} (tc : Toolchain τ) : Nat → Str → Option (List (Str × Str) × Str)
  | 0, _ => none
  | fuel + 1, text =>
    match expect entryOpen text with
    | none => some ([], text)
    | some _ =>
      match parseEntry tc text with
      | none => none
      | some (e, rest) =>
        match parseEntries tc fuel rest with
        | none => none
        | some (es, r) => some (e :: es, r)

/-- Read a program of the shape of the template `reflectProgram`: the imported path,
the entries of `its` (name `sym`, type name after `pkg_.`) and the argument of
`path.Base`.  Any other text is not a program to this reading. -/
def parseProgram {τ : Type} (tc : Toolchain τ) (text : Str) :
    Option (Str × List (Str × Str) × Str) :=
  match expect programHead text with
  | none => none
  | some r1 =>
    match tc.unquote r1 with
    | none => none
    | some (importPath, r2) =>
      match expect programIts r2 with
      | none => none
      | some r3 =>
        match parseEntries tc (r3.length + 1) r3 with
        | none => none
        | some (entries, r4) =>
          match expect programPkg r4 with
          | none => none
          | some r5 =>
            match tc.unquote r5 with
            | none => none
            | some (baseArg, r6) =>
              if r6 = programTail then some (importPath, entries, baseArg) else none

/-- The types of the entries of `its`: each `pkg_.Name` must name a type of the
imported package, else the program does not compile. -/
def resolveIts {τ : Type} (typeOf : Str → Option τ) : List (Str × Str) → Option (List (Str × τ))
  | [] => some []
  | (sym, name) :: rest =>
    match typeOf name, resolveIts typeOf rest with
    | some typ, some its => some ((sym, typ) :: its)
    | _, _ => none

/-- Build and run the program text: `none` when it does not compile (not of the shape
of the template, no entry in `its` so that `pkg_` is imported and not used, or a name
that is no type of the package); otherwise the outcome of `main`, the package encoded
to the standard output or the diagnostic of the failed walk (exit status 1). -/
def runProgram {τ : Type} (tc : Toolchain τ) (text : Str) : Option (Except Str Package) :=
  match parseProgram tc text with
  | none => none
  | some (importPath, entries, baseArg) =>
    if entries.isEmpty then none
    else
      match resolveIts (tc.typeOf importPath) entries with
      | none => none
      | some its =>
        match collectInterfaces tc.InterfaceFromInterfaceType its [] with
        | .error msg => some (.error msg)
        | .ok interfaces => some (.ok { Name := pathBase baseArg, Interfaces := interfaces })

/-- The interface that `main` builds from the symbol `s` of the package `importPath`. -/
def BuiltFrom {τ : Type} (tc : Toolchain τ) (importPath : Str) (s : Str) (intf : Interface) :
    Prop :=
  ∃ typ walked, tc.typeOf importPath s = some typ ∧
    tc.InterfaceFromInterfaceType typ = .ok walked ∧ intf = { walked with Name := s }

/-- The part of a string after its last `sep` (the whole string when it has none). -/
def afterLast (sep : Char) (s : Str) : Str :=
  (s.reverse.takeWhile (fun c => c ≠ sep)).reverse

/-! ## Auxiliary definitions and concrete worlds -/

/-- One step of the loop of `matchersFilter`. -/
def filterStep (result : List Str) (m : Str) : List Str :=
  if (TrimSpace m).length > 0 then
    (if TrimSpace m ∈ result then result else result ++ [TrimSpace m])
  else result

/-- A world for concrete runs: the parser answers a package `io` with the interface
`Reader`, the generator answers a mock and two matchers, no file-system effect fails. -/
def demoCollaborators : Collaborators where
  SourceMode := SourceModeSpec
  ParseFile := fun _ => .ok ⟨"io".toList, [⟨"Reader".toList, []⟩]⟩
  GenerateModel := fun _ _ => .ok ⟨"io".toList, [⟨"Reader".toList, []⟩]⟩
  Reflect := fun _ _ _ _ _ => some (.ok ⟨"io".toList, [⟨"Reader".toList, []⟩]⟩)
  GenerateOutput := fun _ _ _ _ _ =>
    ("mock".toList, [("AnyFoo".toList, "m1".toList), ("EqBar".toList, "m2".toList)])
  ioErr := fun _ _ => none

/-- Options for concrete runs. -/
def demoOptions (shouldGenerateMatchers : Bool) (skipMatchers : Str) : Options where
  nameOut := []
  packageOut := []
  selfPackage := []
  debugParser := false
  useExperimentalModelGen := false
  shouldGenerateMatchers := shouldGenerateMatchers
  matchersDestination := []
  skipMatchers := skipMatchers
  execOnly := []
  progOnly := false

/-- The first effect of model acquisition in package mode. -/
def acquisition (o : Options) (a0 a1 outputPath : Str) : Effect :=
  if o.useExperimentalModelGen then Effect.generateModel a0 a1
  else Effect.reflect a0 (Split a1 ',') o.execOnly o.progOnly outputPath

/-- The package of the concrete runs. -/
def demoPackage : Package := ⟨"io".toList, [⟨"Reader".toList, []⟩]⟩

/-- A host for concrete runs: working directory `/work`, random names `7`, `77`, ...,
no file-system error, the given behaviour of the build and of the binaries, and a
decoder that accepts the one output `gob:io`. -/
def demoHost (b : BuildResult) (r : RunResult) : Host where
  GOOS := "linux".toList
  Getwd := .ok ["work".toList]
  nextRandom := fun t => List.replicate (t + 1) '7'
  mkdirErr := fun _ => none
  writeFileErr := fun _ => none
  quote := fun x => '"' :: x ++ ['"']
  executeErr := none
  goBuild := fun _ _ => b
  run := fun _ _ => r
  gobDecode := fun out => if out = "gob:io".toList then .ok demoPackage else .error "EOF".toList

/-- A world for concrete runs: the working directory holds one file and an old
workspace of the name that is tried first. -/
def demoWorld : World where
  fs := [(["work".toList], Node.dir), (["work".toList, "a.go".toList], Node.file "x".toList),
    (["work".toList, ".tmp_gomock_reflect_7".toList], Node.dir)]
  stdout := []
  stderr := []
  procs := []

/-- A build that fails with a compiler diagnostic and leaves an object file. -/
def failedBuild : BuildResult where
  err := some "exit status 1".toList
  stderr := "./prog.go:17:30: syntax error".toList
  files := [("prog.o".toList, "obj".toList)]

/-- A build that leaves the binary. -/
def goodBuild : BuildResult where
  err := none
  stderr := []
  files := [("prog.bin".toList, "elf".toList)]

/-- A run of the binary that prints the encoded package. -/
def goodRun : RunResult where
  err := none
  stdout := "gob:io".toList
  stderr := []

/-- The world after the failed build of the concrete run: the build process is
recorded, the file system is as before. -/
def demoWorldAfterBuild : World :=
  { demoWorld with
    procs := [Proc.go ["work".toList, ".tmp_gomock_reflect_77".toList]
      ["build".toList, "-o".toList, "prog.bin".toList, "prog.go".toList]] }

/-- A method-set walker for concrete runs: the types `Reader` and `Writer` are
interfaces with one method each, every other type is rejected. -/
def demoWalk (typ : Str) : Except Str Interface :=
  if typ = "Reader".toList then .ok ⟨[], ["Read".toList]⟩
  else if typ = "Writer".toList then .ok ⟨[], ["Write".toList]⟩
  else .error "not an interface".toList

/-- A reader of string literals for concrete runs: the text between two double
quotes, for literals without escapes. -/
def demoUnquote (text : Str) : Option (Str × Str) :=
  match text with
  | '"' :: t =>
    match t.dropWhile (fun c => c ≠ '"') with
    | '"' :: rest => some (t.takeWhile (fun c => c ≠ '"'), rest)
    | _ => none
  | _ => none

/-- A toolchain for concrete runs: ASCII identifiers, and the package `example.com/io`
with the types `Reader` and `Writer`. -/
def demoToolchain : Toolchain Str where
  unquote := demoUnquote
  isLetterExt := fun _ => false
  isDigitExt := fun _ => false
  typeOf := fun importPath name =>
    if importPath = "example.com/io".toList ∧
        (name = "Reader".toList ∨ name = "Writer".toList) then some name
    else none
  InterfaceFromInterfaceType := demoWalk

/-- The package of `example.com/io` with the interfaces `Reader` and `Writer`. -/
def ioPackage : Package :=
  ⟨"io".toList, [⟨"Reader".toList, ["Read".toList]⟩, ⟨"Writer".toList, ["Write".toList]⟩]⟩

/-- A run of the binary that prints the encoding of `ioPackage`. -/
def ioRun : RunResult where
  err := none
  stdout := "gob:io:Reader,Writer".toList
  stderr := []

/-- The host of the concrete runs with a decoder that reads `ioPackage`. -/
def ioHost : Host :=
  { demoHost goodBuild ioRun with
    gobDecode := fun out =>
      if out = "gob:io:Reader,Writer".toList then .ok ioPackage else .error "EOF".toList }

/-! ## Lemmas on the string functions -/

theorem Split_ne_nil (s : Str) (sep : Char) : Split s sep ≠ [] := by
  induction s with
  | nil => simp [Split]
  | cons c cs ih =>
    unfold Split
    split
    · simp
    · split <;> simp

theorem Split_mem_chars (sep : Char) :
    ∀ (s : Str) (p : Str), p ∈ Split s sep → ∀ c ∈ p, c ∈ s ∧ c ≠ sep := by
  intro s
  induction s with
  | nil =>
    intro p hp c hc
    simp [Split] at hp
    subst hp
    simp at hc
  | cons a cs ih =>
    intro p hp c hc
    unfold Split at hp
    by_cases hsep : a = sep
    · simp only [hsep, if_true, List.mem_cons] at hp
      rcases hp with hp | hp
      · subst hp; simp at hc
      · have := ih p hp c hc
        exact ⟨List.mem_cons_of_mem _ this.1, this.2⟩
    · simp only [hsep, if_false] at hp
      cases hsp : Split cs sep with
      | nil => exact absurd hsp (Split_ne_nil cs sep)
      | cons q qs =>
        rw [hsp] at hp
        simp only [List.mem_cons] at hp
        rcases hp with hp | hp
        · subst hp
          simp only [List.mem_cons] at hc
          rcases hc with hc | hc
          · subst hc; exact ⟨List.mem_cons_self _ _, hsep⟩
          · have := ih q (by rw [hsp]; exact List.mem_cons_self _ _) c hc
            exact ⟨List.mem_cons_of_mem _ this.1, this.2⟩
        · have := ih p (by rw [hsp]; exact List.mem_cons_of_mem _ hp) c hc
          exact ⟨List.mem_cons_of_mem _ this.1, this.2⟩

theorem TrimSpace_eq_rdropWhile (s : Str) :
    TrimSpace s = (s.dropWhile isSpace).rdropWhile isSpace := rfl

theorem TrimSpace_of_all_space (s : Str) (h : ∀ c ∈ s, isSpace c = true) : TrimSpace s = [] := by
  have h1 : s.dropWhile isSpace = [] := by
    rw [List.dropWhile_eq_nil_iff]
    exact h
  simp [TrimSpace, h1]

theorem TrimSpace_head (s : Str) (c : Char) (h : (TrimSpace s).head? = some c) :
    isSpace c = false := by
  rw [TrimSpace_eq_rdropWhile] at h
  have hpre : (s.dropWhile isSpace).rdropWhile isSpace <+: s.dropWhile isSpace :=
    List.rdropWhile_prefix _ _
  obtain ⟨t, ht⟩ := hpre
  have hd := List.head?_dropWhile_not isSpace s
  cases hr : (s.dropWhile isSpace).rdropWhile isSpace with
  | nil => rw [hr] at h; simp at h
  | cons a as =>
    rw [hr] at h ht
    simp only [List.head?_cons, Option.some.injEq] at h
    subst h
    rw [← ht] at hd
    simpa using hd

theorem TrimSpace_getLast (s : Str) (c : Char) (h : (TrimSpace s).getLast? = some c) :
    isSpace c = false := by
  unfold TrimSpace at h
  rw [List.getLast?_reverse] at h
  have hd := List.head?_dropWhile_not isSpace (s.dropWhile isSpace).reverse
  rw [h] at hd
  simpa using hd

theorem matchersFilter_eq_foldl (s : Str) :
    matchersFilter s = (Split s ',').foldl filterStep [] := rfl

theorem mem_foldl_filterStep (n : Str) :
    ∀ (pieces : List Str) (acc : List Str),
      n ∈ pieces.foldl filterStep acc ↔
        n ∈ acc ∨ (n ≠ [] ∧ ∃ p ∈ pieces, TrimSpace p = n) := by
  intro pieces
  induction pieces with
  | nil => intro acc; simp
  | cons m ms ih =>
    intro acc
    rw [List.foldl_cons, ih]
    unfold filterStep
    by_cases hlen : (TrimSpace m).length > 0
    · have hne : TrimSpace m ≠ [] := by
        intro h0; rw [h0] at hlen; simp at hlen
      by_cases hmem : TrimSpace m ∈ acc
      · simp only [hlen, hmem, if_true]
        constructor
        · rintro (h | ⟨h1, p, hp, hpn⟩)
          · exact Or.inl h
          · exact Or.inr ⟨h1, p, List.mem_cons_of_mem _ hp, hpn⟩
        · rintro (h | ⟨h1, p, hp, hpn⟩)
          · exact Or.inl h
          · rcases List.mem_cons.mp hp with hp | hp
            · subst hp; subst hpn; exact Or.inl hmem
            · exact Or.inr ⟨h1, p, hp, hpn⟩
      · simp only [hlen, hmem, if_true, if_false, List.mem_append, List.mem_singleton]
        constructor
        · rintro ((h | h) | ⟨h1, p, hp, hpn⟩)
          · exact Or.inl h
          · exact Or.inr ⟨by rw [h]; exact hne, m, List.mem_cons_self _ _, h.symm⟩
          · exact Or.inr ⟨h1, p, List.mem_cons_of_mem _ hp, hpn⟩
        · rintro (h | ⟨h1, p, hp, hpn⟩)
          · exact Or.inl (Or.inl h)
          · rcases List.mem_cons.mp hp with hp | hp
            · subst hp; exact Or.inl (Or.inr hpn.symm)
            · exact Or.inr ⟨h1, p, hp, hpn⟩
    · have h0 : TrimSpace m = [] := by
        cases hT : TrimSpace m with
        | nil => rfl
        | cons a as => rw [hT] at hlen; simp at hlen
      simp only [hlen, if_false]
      constructor
      · rintro (h | ⟨h1, p, hp, hpn⟩)
        · exact Or.inl h
        · exact Or.inr ⟨h1, p, List.mem_cons_of_mem _ hp, hpn⟩
      · rintro (h | ⟨h1, p, hp, hpn⟩)
        · exact Or.inl h
        · rcases List.mem_cons.mp hp with hp | hp
          · subst hp; rw [h0] at hpn; exact absurd hpn.symm h1
          · exact Or.inr ⟨h1, p, hp, hpn⟩

theorem nodup_foldl_filterStep :
    ∀ (pieces : List Str) (acc : List Str), acc.Nodup → (pieces.foldl filterStep acc).Nodup := by
  intro pieces
  induction pieces with
  | nil => intro acc h; simpa using h
  | cons m ms ih =>
    intro acc h
    rw [List.foldl_cons]
    apply ih
    unfold filterStep
    split
    · split
      · exact h
      · rename_i hmem
        rw [List.nodup_append]
        refine ⟨h, List.nodup_singleton _, ?_⟩
        intro a ha hb
        simp only [List.mem_singleton] at hb
        subst hb
        exact hmem ha
    · exact h

theorem afterLast_of_not_mem (sep : Char) (s : Str) (h : sep ∉ s) : afterLast sep s = s := by
  unfold afterLast
  have : s.reverse.takeWhile (fun c => decide (c ≠ sep)) = s.reverse := by
    rw [List.takeWhile_eq_self_iff]
    intro c hc
    have hc2 : c ∈ s := List.mem_reverse.mp hc
    have : c ≠ sep := fun e => h (e ▸ hc2)
    simpa using this
  rw [this, List.reverse_reverse]

/-! ## Output path resolution -/

/-- The path functions on concrete inputs: `Clean` drops empty elements and `.`,
resolves `..`; `Join` ignores an empty first element; `Dir` of a plain name is `.`. -/
theorem filepath_concrete :
    Clean "a//b/../c/.".toList = "a/c".toList ∧
    Clean "/../a".toList = "/a".toList ∧
    Clean "../../a/..".toList = "../..".toList ∧
    Join ["out".toList, "mock_x.go".toList] = "out/mock_x.go".toList ∧
    Join [[], "mock_x.go".toList] = "mock_x.go".toList ∧
    Join [[], []] = [] ∧
    Dir "a/b/c.go".toList = "a/b".toList ∧
    Dir "c.go".toList = ".".toList ∧
    Dir "/c.go".toList = "/".toList := by
  decide

set_option maxRecDepth 100000 in
theorem toLowerNat_ascii :
    ∀ n < 128, toLowerNat n = if 65 ≤ n ∧ n ≤ 90 then n + 32 else n := by
  decide

theorem toLowerRune_ascii (c : Char) (hc : c.toNat < 128) :
    toLowerRune c = if 65 ≤ c.toNat ∧ c.toNat ≤ 90 then Char.ofNat (c.toNat + 32) else c := by
  unfold toLowerRune
  rw [toLowerNat_ascii c.toNat hc]
  split
  · rfl
  · exact Char.ofNat_toNat c

/-- C1 (as the code has it): in package mode with no override, OutputFilePath is
`filepath.Join(outputDirPath, "mock_" + strings.ToLower(symbols) + "_test.go")`, where
`symbols` is the last argument taken whole; the import path does not enter the name.
The lower-casing is rune by rune under `unicode.ToLower`, which on ASCII runes turns
`A`..`Z` into `a`..`z` and leaves every other rune as it is. -/
theorem OutputFilePath_package_mode (SourceMode : List Str → Bool)
    (outputDirPath importPath symbols : Str)
    (hmode : SourceMode [importPath, symbols] = false) :
    OutputFilePath SourceMode [importPath, symbols] outputDirPath [] =
      some (Join [outputDirPath, "mock_".toList ++ ToLower symbols ++ "_test.go".toList]) ∧
    (ToLower symbols).length = symbols.length ∧
    (∀ (i : Nat) (c : Char), symbols[i]? = some c →
      (ToLower symbols)[i]? = some (toLowerRune c) ∧
      (c.toNat < 128 →
        toLowerRune c =
          if 65 ≤ c.toNat ∧ c.toNat ≤ 90 then Char.ofNat (c.toNat + 32) else c)) := by
  refine ⟨by simp [OutputFilePath, hmode], by simp [ToLower], ?_⟩
  intro i c hic
  refine ⟨by simp [ToLower, hic], toLowerRune_ascii c⟩

theorem OutputFilePath_package_mode_witness :
    SourceModeSpec ["example.com/pkg".toList, "Reader".toList] = false ∧
    OutputFilePath SourceModeSpec ["example.com/pkg".toList, "Reader".toList] "out".toList [] =
      some "out/mock_reader_test.go".toList ∧
    OutputFilePath SourceModeSpec ["example.com/pkg".toList, "Écrire".toList] "out".toList [] =
      some "out/mock_écrire_test.go".toList :=
  ⟨by decide,
   (OutputFilePath_package_mode SourceModeSpec "out".toList "example.com/pkg".toList
      "Reader".toList (by decide)).1.trans (by decide),
   by decide⟩

/-- C1 fails as stated: for `args = ["example.com/pkg", "Reader,Writer"]` the file is
named after the lower-cased symbol list, `mock_reader,writer_test.go`, not after the
last segment of the import path. -/
theorem OutputFilePath_package_mode_counterexample :
    SourceModeSpec ["example.com/pkg".toList, "Reader,Writer".toList] = false ∧
    OutputFilePath SourceModeSpec ["example.com/pkg".toList, "Reader,Writer".toList] "out".toList [] =
      some "out/mock_reader,writer_test.go".toList ∧
    OutputFilePath SourceModeSpec ["example.com/pkg".toList, "Reader,Writer".toList] "out".toList [] ≠
      some (Join ["out".toList,
        "mock_".toList ++ ToLower (afterLast '/' "example.com/pkg".toList) ++ "_test.go".toList]) := by
  decide

/-- C2 (as the code has it): in source mode with no override, OutputFilePath is
`filepath.Join(outputDirPath, "mock_" + strings.TrimSuffix(sourcePath, ".go") + "_test.go")`,
the whole source path with its directory components; when the source path has no
separator this is the name built from its basename, and a source path ending in `.go`
loses exactly that extension. -/
theorem OutputFilePath_source_mode (SourceMode : List Str → Bool)
    (outputDirPath sourcePath : Str)
    (hmode : SourceMode [sourcePath] = true) :
    OutputFilePath SourceMode [sourcePath] outputDirPath [] =
      some (Join [outputDirPath,
        "mock_".toList ++ TrimSuffix sourcePath ".go".toList ++ "_test.go".toList]) ∧
    ('/' ∉ sourcePath →
      OutputFilePath SourceMode [sourcePath] outputDirPath [] =
        some (Join [outputDirPath,
          "mock_".toList ++ TrimSuffix (afterLast '/' sourcePath) ".go".toList ++ "_test.go".toList])) ∧
    (HasSuffix sourcePath ".go".toList = true →
      TrimSuffix sourcePath ".go".toList ++ ".go".toList = sourcePath) := by
  have h1 : OutputFilePath SourceMode [sourcePath] outputDirPath [] =
      some (Join [outputDirPath,
        "mock_".toList ++ TrimSuffix sourcePath ".go".toList ++ "_test.go".toList]) := by
    simp [OutputFilePath, hmode]
  refine ⟨h1, ?_, ?_⟩
  · intro hsep
    rw [afterLast_of_not_mem '/' sourcePath hsep]
    exact h1
  · intro hsuf
    have hsuf2 := hsuf
    unfold HasSuffix at hsuf2
    simp only [Bool.and_eq_true, decide_eq_true_eq, beq_iff_eq] at hsuf2
    unfold TrimSuffix
    rw [if_pos hsuf]
    have htd := List.take_append_drop (sourcePath.length - ".go".toList.length) sourcePath
    rw [hsuf2.2] at htd
    exact htd

theorem OutputFilePath_source_mode_witness :
    SourceModeSpec ["foo.go".toList] = true ∧
    OutputFilePath SourceModeSpec ["foo.go".toList] "out".toList [] =
      some "out/mock_foo_test.go".toList :=
  ⟨by decide,
   (OutputFilePath_source_mode SourceModeSpec "out".toList "foo.go".toList (by decide)).1.trans
     (by decide)⟩

/-- C2 fails as stated: for `args = ["dir/foo.go"]` the directory component stays in
the name, `out/mock_dir/foo_test.go`, and the basename `foo` alone is not used. -/
theorem OutputFilePath_source_mode_counterexample :
    SourceModeSpec ["dir/foo.go".toList] = true ∧
    OutputFilePath SourceModeSpec ["dir/foo.go".toList] "out".toList [] =
      some "out/mock_dir/foo_test.go".toList ∧
    OutputFilePath SourceModeSpec ["dir/foo.go".toList] "out".toList [] ≠
      some (Join ["out".toList,
        "mock_".toList ++ TrimSuffix (afterLast '/' "dir/foo.go".toList) ".go".toList
          ++ "_test.go".toList]) := by
  decide

/-- C3: a non-empty outputFilePathOverride is returned unchanged, for every args (the
empty list included) and every outputDirPath. -/
theorem OutputFilePath_override (SourceMode : List Str → Bool) (args : List Str)
    (outputDirPath outputFilePathOverride : Str)
    (hov : outputFilePathOverride ≠ []) :
    OutputFilePath SourceMode args outputDirPath outputFilePathOverride =
      some outputFilePathOverride := by
  simp [OutputFilePath, hov]

theorem OutputFilePath_override_witness :
    "gen/my_mock.go".toList ≠ [] ∧
    OutputFilePath SourceModeSpec [] "out".toList "gen/my_mock.go".toList =
      some "gen/my_mock.go".toList :=
  ⟨by decide, OutputFilePath_override SourceModeSpec [] _ _ (by decide)⟩

/-! ## Matcher exclusion set -/

/-- C4: the keys of matchersFilter(skipMatchers) are exactly the non-empty trimmed
comma-separated pieces of skipMatchers; every key is free of leading and trailing
white space and occurs once; "Foo, Bar" gives the keys Foo and Bar; a string of
white space and commas only (the empty string included) gives no key. -/
theorem matchersFilter_keys (skipMatchers : Str) :
    (∀ n : Str, n ∈ matchersFilter skipMatchers ↔
      (n ≠ [] ∧ (∀ c, n.head? = some c → isSpace c = false) ∧
        (∀ c, n.getLast? = some c → isSpace c = false) ∧
        ∃ p ∈ Split skipMatchers ',', TrimSpace p = n)) ∧
    (∀ n : Str, n ∈ matchersFilter skipMatchers ↔
      n ∈ ((Split skipMatchers ',').map TrimSpace).filter (fun x => x ≠ [])) ∧
    (matchersFilter skipMatchers).Nodup ∧
    matchersFilter "Foo, Bar".toList = ["Foo".toList, "Bar".toList] ∧
    matchersFilter [] = [] ∧
    ((∀ c ∈ skipMatchers, isSpace c = true ∨ c = ',') → matchersFilter skipMatchers = []) := by
  have hmem : ∀ n : Str, n ∈ matchersFilter skipMatchers ↔
      (n ≠ [] ∧ ∃ p ∈ Split skipMatchers ',', TrimSpace p = n) := by
    intro n
    rw [matchersFilter_eq_foldl, mem_foldl_filterStep]
    simp
  refine ⟨?_, ?_, ?_, by decide, by decide, ?_⟩
  · intro n
    rw [hmem]
    constructor
    · rintro ⟨hne, p, hp, hpn⟩
      refine ⟨hne, ?_, ?_, p, hp, hpn⟩
      · intro c hc; rw [← hpn] at hc; exact TrimSpace_head p c hc
      · intro c hc; rw [← hpn] at hc; exact TrimSpace_getLast p c hc
    · rintro ⟨hne, _, _, p, hp, hpn⟩
      exact ⟨hne, p, hp, hpn⟩
  · intro n
    rw [hmem]
    simp only [List.mem_filter, List.mem_map, decide_eq_true_eq]
    constructor
    · rintro ⟨hne, p, hp, hpn⟩; exact ⟨⟨p, hp, hpn⟩, hne⟩
    · rintro ⟨⟨p, hp, hpn⟩, hne⟩; exact ⟨hne, p, hp, hpn⟩
  · rw [matchersFilter_eq_foldl]
    exact nodup_foldl_filterStep _ _ List.nodup_nil
  · intro hall
    apply List.eq_nil_iff_forall_not_mem.mpr
    intro n hn
    obtain ⟨hne, p, hp, hpn⟩ := (hmem n).mp hn
    apply hne
    rw [← hpn]
    apply TrimSpace_of_all_space
    intro c hc
    obtain ⟨hcs, hcne⟩ := Split_mem_chars ',' skipMatchers p hp c hc
    rcases hall c hcs with h | h
    · exact h
    · exact absurd h hcne

theorem matchersFilter_keys_witness :
    (∀ c ∈ " , \t,".toList, isSpace c = true ∨ c = ',') ∧ matchersFilter " , \t,".toList = [] :=
  ⟨by decide, (matchersFilter_keys " , \t,".toList).2.2.2.2.2 (by decide)⟩

/-! ## Persistence and the usage error -/

theorem writeMatchers_no_error (c : Collaborators) (matchersPath : Str) (excluded : List Str)
    (hfs : ∀ d e, c.ioErr d e = none) :
    ∀ (ms : List (Str × Str)) (done : List Effect),
      writeMatchers c matchersPath excluded ms done =
        (.ok (), done ++ (ms.filter (fun m => decide (m.1 ∉ excluded))).map
          (fun m => Effect.writeFile (Join [matchersPath, m.1 ++ ".go".toList]) m.2)) := by
  intro ms
  induction ms with
  | nil => intro done; simp [writeMatchers]
  | cons m rest ih =>
    intro done
    obtain ⟨name, code⟩ := m
    unfold writeMatchers
    by_cases hex : name ∈ excluded
    · simp only [hex, if_true]
      rw [ih]
      simp [hex]
    · simp only [hex, if_false, hfs]
      rw [ih]
      simp [hex]

/-- C5: with no file-system error, once the generator has answered the mock source
and the matcher sources, GenerateMockFile returns normally and its effects are, in
this order: the write of the mock file; then, when shouldGenerateMatchers is set,
the creation of the matchers directory (matchersDestination if non-empty, else
`matchers` beside the mock file) and one write of
`filepath.Join(dir, name + ".go")` with the mapped source for each matcher name that
is not a key of matchersFilter(skipMatchers), and none for an excluded name; when
shouldGenerateMatchers is not set, nothing follows the write of the mock file. -/
theorem GenerateMockFile_matchers (c : Collaborators) (args : List Str) (outputFilePath : Str)
    (o : Options) (done done1 : List Effect) (mockSourceCode : Str)
    (matcherSourceCodes : List (Str × Str))
    (hfs : ∀ d e, c.ioErr d e = none)
    (hgen : GenerateMockSourceCode c args o outputFilePath done =
      (.ok (mockSourceCode, matcherSourceCodes), done1)) :
    GenerateMockFile c args outputFilePath o done =
      (.ok (),
        done1 ++ [Effect.writeFile outputFilePath mockSourceCode] ++
          (if o.shouldGenerateMatchers then
            Effect.mkdirAll
                (if o.matchersDestination ≠ [] then o.matchersDestination
                 else Join [Dir outputFilePath, "matchers".toList]) ::
              (matcherSourceCodes.filter
                  (fun m => decide (m.1 ∉ matchersFilter o.skipMatchers))).map
                (fun m => Effect.writeFile
                  (Join [if o.matchersDestination ≠ [] then o.matchersDestination
                         else Join [Dir outputFilePath, "matchers".toList],
                         m.1 ++ ".go".toList]) m.2)
           else [])) := by
  unfold GenerateMockFile
  rw [hgen]
  simp only [hfs]
  by_cases hm : o.shouldGenerateMatchers = true
  · simp only [hm, if_true]
    rw [writeMatchers_no_error c _ _ hfs]
    simp [matchersDir]
  · simp [hm]

theorem GenerateMockFile_matchers_witness :
    GenerateMockFile demoCollaborators ["foo.go".toList] "out/mock_foo_test.go".toList
        (demoOptions true "EqBar, Other".toList) [] =
      (.ok (),
        [Effect.parseFile "foo.go".toList,
         Effect.generateOutput ⟨"io".toList, [⟨"Reader".toList, []⟩]⟩ "foo.go".toList [] [] [],
         Effect.writeFile "out/mock_foo_test.go".toList "mock".toList,
         Effect.mkdirAll "out/matchers".toList,
         Effect.writeFile "out/matchers/AnyFoo.go".toList "m1".toList]) :=
  (GenerateMockFile_matchers demoCollaborators ["foo.go".toList] "out/mock_foo_test.go".toList
      (demoOptions true "EqBar, Other".toList) []
      [Effect.parseFile "foo.go".toList,
       Effect.generateOutput ⟨"io".toList, [⟨"Reader".toList, []⟩]⟩ "foo.go".toList [] [] []]
      "mock".toList [("AnyFoo".toList, "m1".toList), ("EqBar".toList, "m2".toList)]
      (fun _ _ => rfl) (by decide)).trans (by decide)

theorem GenerateMockSourceCode_usage (c : Collaborators) (args : List Str) (o : Options)
    (outputPath : Str) (done : List Effect)
    (hmode : c.SourceMode args = false) (hlen : args.length ≠ 2) :
    GenerateMockSourceCode c args o outputPath done = (.fatal (usageError args), done) := by
  unfold GenerateMockSourceCode
  simp only [hmode, Bool.false_eq_true, if_false]
  split
  · simp at hlen
  · rfl

theorem GenerateMockFile_usage (c : Collaborators) (args : List Str) (o : Options)
    (outputFilePath : Str) (done : List Effect)
    (hmode : c.SourceMode args = false) (hlen : args.length ≠ 2) :
    GenerateMockFile c args outputFilePath o done = (.fatal (usageError args), done) := by
  unfold GenerateMockFile
  rw [GenerateMockSourceCode_usage c args o outputFilePath done hmode hlen]

theorem generateFromModel_not_fatal (c : Collaborators) (o : Options) (r : Except Str Package)
    (src : Str) (done : List Effect) :
    (∀ msg, (generateFromModel c o r src done).1 ≠ .fatal msg) ∧
    ∃ rest, (generateFromModel c o r src done).2 = done ++ rest := by
  unfold generateFromModel
  cases r with
  | error e => exact ⟨by intro msg; simp, [], by simp⟩
  | ok ast =>
    refine ⟨by intro msg; simp, ?_⟩
    by_cases hd : o.debugParser = true
    · exact ⟨[Effect.print ast,
        Effect.generateOutput ast src o.nameOut o.packageOut o.selfPackage], by simp [hd]⟩
    · exact ⟨[Effect.generateOutput ast src o.nameOut o.packageOut o.selfPackage], by simp [hd]⟩

theorem GenerateMockSourceCode_two_args (c : Collaborators) (a0 a1 : Str) (o : Options)
    (outputPath : Str) (done : List Effect) (hmode : c.SourceMode [a0, a1] = false) :
    (∀ msg, (GenerateMockSourceCode c [a0, a1] o outputPath done).1 ≠ .fatal msg) ∧
    ∃ rest, (GenerateMockSourceCode c [a0, a1] o outputPath done).2 =
      done ++ [acquisition o a0 a1 outputPath] ++ rest := by
  unfold GenerateMockSourceCode acquisition
  simp only [hmode, Bool.false_eq_true, if_false]
  by_cases hexp : o.useExperimentalModelGen = true
  · simp only [hexp, if_true]
    exact generateFromModel_not_fatal c o _ _ _
  · simp only [hexp, if_false]
    cases hr : c.Reflect a0 (Split a1 ',') o.execOnly o.progOnly outputPath with
    | none => exact ⟨by intro msg; simp, [], by simp⟩
    | some r => exact generateFromModel_not_fatal c o _ _ _

theorem writeMatchers_not_fatal (c : Collaborators) (matchersPath : Str) (excluded : List Str) :
    ∀ (ms : List (Str × Str)) (done : List Effect),
      (∀ msg, (writeMatchers c matchersPath excluded ms done).1 ≠ .fatal msg) ∧
      ∃ rest, (writeMatchers c matchersPath excluded ms done).2 = done ++ rest := by
  intro ms
  induction ms with
  | nil => intro done; exact ⟨by intro msg; simp [writeMatchers], [], by simp [writeMatchers]⟩
  | cons m rest ih =>
    intro done
    obtain ⟨name, code⟩ := m
    unfold writeMatchers
    by_cases hex : name ∈ excluded
    · simp only [hex, if_true]
      exact ih done
    · simp only [hex, if_false]
      cases he : c.ioErr done
          (Effect.writeFile (Join [matchersPath, name ++ ".go".toList]) code) with
      | some err => exact ⟨by intro msg; simp, [], by simp⟩
      | none =>
        obtain ⟨h1, r, h2⟩ := ih (done ++
          [Effect.writeFile (Join [matchersPath, name ++ ".go".toList]) code])
        refine ⟨h1,
          Effect.writeFile (Join [matchersPath, name ++ ".go".toList]) code :: r, ?_⟩
        rw [h2]
        simp

theorem GenerateMockFile_two_args (c : Collaborators) (a0 a1 : Str) (o : Options)
    (outputFilePath : Str) (done : List Effect) (hmode : c.SourceMode [a0, a1] = false) :
    (∀ msg, (GenerateMockFile c [a0, a1] outputFilePath o done).1 ≠ .fatal msg) ∧
    ∃ rest, (GenerateMockFile c [a0, a1] outputFilePath o done).2 =
      done ++ [acquisition o a0 a1 outputFilePath] ++ rest := by
  obtain ⟨hnf, r0, hr0⟩ := GenerateMockSourceCode_two_args c a0 a1 o outputFilePath done hmode
  unfold GenerateMockFile
  cases hg : GenerateMockSourceCode c [a0, a1] o outputFilePath done with
  | mk out done1 =>
    rw [hg] at hnf hr0
    simp only at hnf hr0
    cases out with
    | ok v =>
      obtain ⟨mock, matchers⟩ := v
      simp only
      cases hw : c.ioErr done1 (Effect.writeFile outputFilePath mock) with
      | some err => exact ⟨by intro msg; simp, r0, hr0⟩
      | none =>
        simp only
        by_cases hm : o.shouldGenerateMatchers = true
        · simp only [hm, if_true]
          cases hk : c.ioErr (done1 ++ [Effect.writeFile outputFilePath mock])
              (Effect.mkdirAll (matchersDir outputFilePath o.matchersDestination)) with
          | some err =>
            exact ⟨by intro msg; simp, r0 ++ [Effect.writeFile outputFilePath mock],
              by simp [hr0]⟩
          | none =>
            simp only
            obtain ⟨h1, r, h2⟩ := writeMatchers_not_fatal c
              (matchersDir outputFilePath o.matchersDestination)
              (matchersFilter o.skipMatchers) matchers
              (done1 ++ [Effect.writeFile outputFilePath mock] ++
                [Effect.mkdirAll (matchersDir outputFilePath o.matchersDestination)])
            refine ⟨h1, r0 ++ [Effect.writeFile outputFilePath mock] ++
              [Effect.mkdirAll (matchersDir outputFilePath o.matchersDestination)] ++ r, ?_⟩
            rw [h2, hr0]
            simp
        · simp only [hm]
          exact ⟨by intro msg; simp, r0 ++ [Effect.writeFile outputFilePath mock],
            by simp [hr0]⟩
    | panic msg => exact ⟨by intro m; simp, r0, hr0⟩
    | indexPanic => exact ⟨by intro m; simp, r0, hr0⟩
    | fatal msg => exact absurd rfl (hnf msg)
    | exit code => exact ⟨by intro m; simp, r0, hr0⟩

/-- C6 (as the code has it): for args that is not source mode and has not exactly two
elements, GenerateMockFileInOutputDir ends in the usage error
"Expected exactly two arguments, but got [args]"; with an empty outputFilePathOverride
and at least one argument nothing at all has been done before it; with a non-empty
outputFilePathOverride whose parent directory can be created, that one
`os.MkdirAll(filepath.Dir(outputFilePathOverride))` is the only effect before it.
With exactly two arguments (and the override empty or its directory created) the
usage error is not raised and the next effect is the model acquisition. -/
theorem GenerateMockFileInOutputDir_usage_error (c : Collaborators)
    (outputDirPath outputFilePathOverride : Str) (o : Options) (done : List Effect) :
    (∀ args : List Str, c.SourceMode args = false → args.length ≠ 2 →
      (outputFilePathOverride = [] → args ≠ [] →
        GenerateMockFileInOutputDir c args outputDirPath outputFilePathOverride o done =
          (.fatal (usageError args), done)) ∧
      (outputFilePathOverride ≠ [] →
        c.ioErr done (Effect.mkdirAll (Dir outputFilePathOverride)) = none →
        GenerateMockFileInOutputDir c args outputDirPath outputFilePathOverride o done =
          (.fatal (usageError args), done ++ [Effect.mkdirAll (Dir outputFilePathOverride)]))) ∧
    (∀ a0 a1 : Str, c.SourceMode [a0, a1] = false →
      (outputFilePathOverride = [] →
        (∀ msg, (GenerateMockFileInOutputDir c [a0, a1] outputDirPath outputFilePathOverride
            o done).1 ≠ .fatal msg) ∧
        ∃ rest, (GenerateMockFileInOutputDir c [a0, a1] outputDirPath outputFilePathOverride
            o done).2 =
          done ++ [acquisition o a0 a1
            (Join [outputDirPath, "mock_".toList ++ ToLower a1 ++ "_test.go".toList])] ++ rest) ∧
      (outputFilePathOverride ≠ [] →
        c.ioErr done (Effect.mkdirAll (Dir outputFilePathOverride)) = none →
        (∀ msg, (GenerateMockFileInOutputDir c [a0, a1] outputDirPath outputFilePathOverride
            o done).1 ≠ .fatal msg) ∧
        ∃ rest, (GenerateMockFileInOutputDir c [a0, a1] outputDirPath outputFilePathOverride
            o done).2 =
          done ++ [Effect.mkdirAll (Dir outputFilePathOverride)] ++
            [acquisition o a0 a1 outputFilePathOverride] ++ rest)) := by
  refine ⟨?_, ?_⟩
  · intro args hmode hlen
    refine ⟨?_, ?_⟩
    · intro hov hne
      subst hov
      obtain ⟨aLast, hl⟩ : ∃ a, args.getLast? = some a := by
        cases h : args.getLast? with
        | none => exact absurd (List.getLast?_eq_none_iff.mp h) hne
        | some a => exact ⟨a, rfl⟩
      simp only [GenerateMockFileInOutputDir, generateAtOutputFilePath, OutputFilePath, hmode, hl,
        ne_eq, not_true_eq_false, if_false, Bool.false_eq_true]
      exact GenerateMockFile_usage c args o _ done hmode hlen
    · intro hov hmk
      simp only [GenerateMockFileInOutputDir, generateAtOutputFilePath, OutputFilePath, hov, hmk,
        ne_eq, not_false_eq_true, if_true]
      exact GenerateMockFile_usage c args o _ _ hmode hlen
  · intro a0 a1 hmode
    refine ⟨?_, ?_⟩
    · intro hov
      subst hov
      simp only [GenerateMockFileInOutputDir, generateAtOutputFilePath, OutputFilePath, hmode,
        ne_eq, not_true_eq_false, if_false, Bool.false_eq_true, List.getLast?_cons_cons,
        List.getLast?_singleton]
      exact GenerateMockFile_two_args c a0 a1 o _ done hmode
    · intro hov hmk
      simp only [GenerateMockFileInOutputDir, generateAtOutputFilePath, OutputFilePath, hov, hmk,
        ne_eq, not_false_eq_true, if_true]
      exact GenerateMockFile_two_args c a0 a1 o _ _ hmode

theorem GenerateMockFileInOutputDir_usage_error_witness :
    demoCollaborators.SourceMode ["a".toList, "b".toList, "c".toList] = false ∧
    ["a".toList, "b".toList, "c".toList].length ≠ 2 ∧
    GenerateMockFileInOutputDir demoCollaborators ["a".toList, "b".toList, "c".toList]
        "out".toList [] (demoOptions true []) [] =
      (.fatal "Expected exactly two arguments, but got [a b c]".toList, []) :=
  ⟨by decide, by decide,
   (((GenerateMockFileInOutputDir_usage_error demoCollaborators "out".toList []
      (demoOptions true []) []).1 ["a".toList, "b".toList, "c".toList]
        (by decide) (by decide)).1 rfl (by decide)).trans (by decide)⟩

/-- C6 fails as stated: with one argument that is not a source file and the override
`gen/m.go`, the directory `gen` has been created when the usage error is raised. -/
theorem GenerateMockFileInOutputDir_usage_error_counterexample :
    demoCollaborators.SourceMode ["pkg".toList] = false ∧
    ["pkg".toList].length = 1 ∧
    GenerateMockFileInOutputDir demoCollaborators ["pkg".toList] "out".toList
        "gen/m.go".toList (demoOptions false []) [] =
      (.fatal "Expected exactly two arguments, but got [pkg]".toList,
        [Effect.mkdirAll "gen".toList]) ∧
    Effect.mkdirAll "gen".toList ∈
      (GenerateMockFileInOutputDir demoCollaborators ["pkg".toList] "out".toList
        "gen/m.go".toList (demoOptions false []) []).2 := by
  decide

/-- With no argument and no override the call does not reach the usage check: the
evaluation of `args[len(args)-1]` in OutputFilePath panics first. -/
theorem GenerateMockFileInOutputDir_no_args :
    GenerateMockFileInOutputDir demoCollaborators [] "out".toList [] (demoOptions false []) [] =
      (.indexPanic, []) := by
  decide

/-! ## The workspace of `Reflect` -/

theorem isUnder_append (root q : Path) : isUnder root (root ++ q) = true := by
  simp [isUnder]

theorem isUnder_self (root : Path) : isUnder root root = true := by
  simp [isUnder]

theorem RemoveAll_fsWriteFile (root p : Path) (data : Str) (fs : FS)
    (hp : isUnder root p = true) :
    RemoveAll root (fsWriteFile fs p data) = RemoveAll root fs := by
  unfold RemoveAll fsWriteFile
  rw [List.filter_append, List.filter_filter]
  have h1 : List.filter (fun e : Path × Node => !isUnder root e.1) [(p, Node.file data)] = [] := by
    simp [hp]
  rw [h1, List.append_nil]
  apply List.filter_congr
  intro e _
  by_cases he : e.1 = p
  · simp [he, hp]
  · simp [he]

theorem RemoveAll_foldl_fsWriteFile (root : Path) :
    ∀ (files : List (Str × Str)) (fs : FS),
      RemoveAll root (files.foldl (fun fs f => fsWriteFile fs (root ++ [f.1]) f.2) fs) =
        RemoveAll root fs := by
  intro files
  induction files with
  | nil => intro fs; rfl
  | cons f rest ih =>
    intro fs
    rw [List.foldl_cons, ih, RemoveAll_fsWriteFile root _ _ _ (isUnder_append root _)]

theorem RemoveAll_append_dir (root : Path) (fs : FS) :
    RemoveAll root (fs ++ [(root, Node.dir)]) = RemoveAll root fs := by
  unfold RemoveAll
  rw [List.filter_append]
  simp [isUnder_self]

theorem mem_RemoveAll (root : Path) (fs : FS) (e : Path × Node) (he : e ∈ RemoveAll root fs) :
    isUnder root e.1 = false := by
  unfold RemoveAll at he
  have := (List.mem_filter.mp he).2
  simpa using this

theorem childName_eq_some (dir p : Path) (x : Str) (h : childName dir p = some x) :
    p = dir ++ [x] := by
  unfold childName at h
  by_cases hd : p.dropLast = dir
  · rw [if_pos hd] at h
    rw [← hd]
    exact (List.dropLast_append_getLast? x (by simpa using h)).symm
  · rw [if_neg hd] at h
    exact absurd h (by simp)

theorem listing_RemoveAll (dir : Path) (n : Str) :
    ∀ fs : FS, (∀ e ∈ fs, e.1 ≠ dir ++ [n]) →
      listing (RemoveAll (dir ++ [n]) fs) dir = listing fs dir := by
  intro fs
  induction fs with
  | nil => intro _; rfl
  | cons e rest ih =>
    intro hfresh
    have ih2 := ih (fun e2 he2 => hfresh e2 (List.mem_cons_of_mem _ he2))
    unfold listing RemoveAll at ih2 ⊢
    by_cases hu : isUnder (dir ++ [n]) e.1 = true
    · have hnone : childName dir e.1 = none := by
        cases hc : childName dir e.1 with
        | none => rfl
        | some x =>
          exfalso
          have hx := childName_eq_some dir e.1 x hc
          have hne := hfresh e (List.mem_cons_self _ _)
          rw [hx] at hu hne
          have hfull : (dir ++ [x]).take (dir ++ [n]).length = dir ++ [x] :=
            List.take_of_length_le (by simp)
          unfold isUnder at hu
          rw [hfull] at hu
          exact hne (by simpa using hu)
      have hu2 : ¬ ((!isUnder (dir ++ [n]) e.1) = true) := by simp [hu]
      rw [List.filter_cons, if_neg hu2, List.filterMap_cons, hnone]
      exact ih2
    · have hu2 : (!isUnder (dir ++ [n]) e.1) = true := by simpa using hu
      rw [List.filter_cons, if_pos hu2, List.filterMap_cons, List.filterMap_cons, ih2]

theorem fsExists_false (fs : FS) (p : Path) (h : fsExists fs p = false) :
    ∀ e ∈ fs, e.1 ≠ p := by
  intro e he heq
  have : fsExists fs p = true := by
    unfold fsExists
    rw [List.any_eq_true]
    exact ⟨e, he, by simpa using heq⟩
  rw [h] at this
  exact absurd this (by simp)

theorem tempDirLoop_ok (h : Host) (dir : Path) (pfx : Str) (fs : FS) (name : Path) :
    ∀ (fuel try_ : Nat), tempDirLoop h dir pfx fs fuel try_ = .ok name →
      (∃ t, name = dir ++ [pfx ++ h.nextRandom t]) ∧ fsExists fs name = false := by
  intro fuel
  induction fuel with
  | zero => intro t ht; simp [tempDirLoop] at ht
  | succ k ih =>
    intro t ht
    unfold tempDirLoop at ht
    by_cases hex : fsExists fs (dir ++ [pfx ++ h.nextRandom t]) = true
    · simp only [hex, if_true] at ht
      exact ih (t + 1) ht
    · simp only [hex] at ht
      cases hm : h.mkdirErr (dir ++ [pfx ++ h.nextRandom t]) with
      | some e => rw [hm] at ht; simp at ht
      | none =>
        rw [hm] at ht
        simp only [Bool.false_eq_true, if_false, Except.ok.injEq] at ht
        subst ht
        exact ⟨⟨t, rfl⟩, by simpa using hex⟩

theorem TempDir_ok (h : Host) (dir : Path) (pfx : Str) (fs fs1 : FS) (tmpDir : Path)
    (ht : TempDir h dir pfx fs = (.ok tmpDir, fs1)) :
    (∃ t, tmpDir = dir ++ [pfx ++ h.nextRandom t]) ∧ fsExists fs tmpDir = false ∧
      fs1 = fs ++ [(tmpDir, Node.dir)] := by
  unfold TempDir at ht
  cases hl : tempDirLoop h dir pfx fs 10000 0 with
  | error e => rw [hl] at ht; simp at ht
  | ok name =>
    rw [hl] at ht
    simp only [Prod.mk.injEq, Except.ok.injEq] at ht
    obtain ⟨h1, h2⟩ := ht
    subst h1
    obtain ⟨ha, hb⟩ := tempDirLoop_ok h dir pfx fs name 10000 0 hl
    exact ⟨ha, hb, h2.symm⟩

theorem runAndDecode_fs (h : Host) (progPath : Path) (w : World) :
    (runAndDecode h progPath w).2.fs = w.fs := by
  unfold runAndDecode
  simp only
  split
  · rfl
  · split <;> rfl

theorem runAndDecode_procs (h : Host) (progPath : Path) (w : World) :
    (runAndDecode h progPath w).2.procs = w.procs ++ [Proc.run progPath] := by
  unfold runAndDecode
  simp only
  split
  · rfl
  · split <;> rfl

theorem reflectInWorkspace_returned (h : Host) (importPath : Str) (symbols : List Str)
    (progOnly : Bool) (outPath tmpDir : Path) (w w1 : World) (r : Except Str Package)
    (hret : reflectInWorkspace h importPath symbols progOnly outPath tmpDir w = (.returned r, w1)) :
    RemoveAll tmpDir w1.fs = RemoveAll tmpDir w.fs := by
  unfold reflectInWorkspace at hret
  cases hx : h.executeErr with
  | some e =>
    rw [hx] at hret
    simp only [Prod.mk.injEq] at hret
    rw [← hret.2]
  | none =>
    rw [hx] at hret
    simp only at hret
    by_cases hp : progOnly = true
    · simp only [hp, if_true] at hret
      by_cases ho : outPath = []
      · simp [ho] at hret
      · simp only [ne_eq, ho, not_false_eq_true, if_true] at hret
        cases hw : h.writeFileErr outPath with
        | some e =>
          rw [hw] at hret
          simp only [Prod.mk.injEq] at hret
          rw [← hret.2]
        | none => rw [hw] at hret; simp at hret
    · simp only [hp, Bool.false_eq_true, if_false] at hret
      cases hw : h.writeFileErr (tmpDir ++ ["prog.go".toList]) with
      | some e =>
        rw [hw] at hret
        simp only [Prod.mk.injEq] at hret
        rw [← hret.2]
      | none =>
        rw [hw] at hret
        simp only at hret
        cases hb : (h.goBuild tmpDir (reflectProgram h.quote importPath symbols)).err with
        | some e =>
          rw [hb] at hret
          simp only [Prod.mk.injEq] at hret
          rw [← hret.2]
          simp only
          rw [RemoveAll_foldl_fsWriteFile,
            RemoveAll_fsWriteFile tmpDir _ _ _ (isUnder_append tmpDir _)]
        | none =>
          rw [hb] at hret
          simp only [Prod.mk.injEq] at hret
          rw [← hret.2, runAndDecode_fs]
          simp only
          rw [RemoveAll_foldl_fsWriteFile,
            RemoveAll_fsWriteFile tmpDir _ _ _ (isUnder_append tmpDir _)]

/-- The file system after a call of `Reflect` that built its own program and
returned: the workspace and all below it is gone, the rest is as before. -/
theorem Reflect_returned_fs (h : Host) (importPath : Str) (symbols : List Str)
    (progOnly : Bool) (outPath : Path) (w w1 : World) (r : Except Str Package)
    (workingDir tmpDir : Path) (fs1 : FS)
    (hwd : h.Getwd = .ok workingDir)
    (htmp : TempDir h workingDir ".tmp_gomock_reflect_".toList w.fs = (.ok tmpDir, fs1))
    (hret : Reflect h importPath symbols [] progOnly outPath w = (.returned r, w1)) :
    w1.fs = RemoveAll tmpDir w.fs := by
  unfold Reflect at hret
  simp only [if_true, hwd, htmp] at hret
  cases hin : reflectInWorkspace h importPath symbols progOnly outPath tmpDir
      { w with fs := fs1 } with
  | mk en w2 =>
    rw [hin] at hret
    cases en with
    | exited c => simp at hret
    | returned r2 =>
      simp only [Prod.mk.injEq] at hret
      rw [← hret.2]
      simp only
      rw [reflectInWorkspace_returned h importPath symbols progOnly outPath tmpDir _ w2 r2 hin]
      simp only
      rw [(TempDir_ok h workingDir _ w.fs fs1 tmpDir htmp).2.2, RemoveAll_append_dir]

/-- C7: when a call of Reflect with an empty progPath returns (a package or an error),
the listing of the working directory is what it was before the call; the workspace
that the call created there (a name starting with `.tmp_gomock_reflect_`, not in the
listing before) and everything below it exists no longer; a call that could not
determine the working directory leaves the world as it was. -/
theorem Reflect_no_leaked_workspace (h : Host) (importPath : Str) (symbols : List Str)
    (progOnly : Bool) (outPath : Path) (w w1 : World) (r : Except Str Package)
    (hret : Reflect h importPath symbols [] progOnly outPath w = (.returned r, w1)) :
    (∀ workingDir, h.Getwd = .ok workingDir →
      listing w1.fs workingDir = listing w.fs workingDir) ∧
    (∀ workingDir tmpDir fs1, h.Getwd = .ok workingDir →
      TempDir h workingDir ".tmp_gomock_reflect_".toList w.fs = (.ok tmpDir, fs1) →
      (∃ t, tmpDir = workingDir ++ [".tmp_gomock_reflect_".toList ++ h.nextRandom t]) ∧
      fsExists w.fs tmpDir = false ∧ fsExists fs1 tmpDir = true ∧
      fsExists w1.fs tmpDir = false ∧ ∀ e ∈ w1.fs, isUnder tmpDir e.1 = false) ∧
    (∀ e, h.Getwd = .error e → w1 = w) := by
  refine ⟨?_, ?_, ?_⟩
  · intro workingDir hwd
    cases htmp : TempDir h workingDir ".tmp_gomock_reflect_".toList w.fs with
    | mk res fs1 =>
      cases res with
      | error e =>
        unfold Reflect at hret
        simp only [if_true, hwd, htmp, Prod.mk.injEq] at hret
        rw [← hret.2]
      | ok tmpDir =>
        have hfs := Reflect_returned_fs h importPath symbols progOnly outPath w w1 r
          workingDir tmpDir fs1 hwd htmp hret
        obtain ⟨⟨t, ht⟩, hfresh, _⟩ := TempDir_ok h workingDir _ w.fs fs1 tmpDir htmp
        rw [hfs, ht]
        apply listing_RemoveAll
        rw [← ht]
        exact fsExists_false w.fs tmpDir hfresh
  · intro workingDir tmpDir fs1 hwd htmp
    have hfs := Reflect_returned_fs h importPath symbols progOnly outPath w w1 r
      workingDir tmpDir fs1 hwd htmp hret
    obtain ⟨hname, hfresh, hfs1⟩ := TempDir_ok h workingDir _ w.fs fs1 tmpDir htmp
    have hgone : ∀ e ∈ w1.fs, isUnder tmpDir e.1 = false := by
      intro e he
      rw [hfs] at he
      exact mem_RemoveAll tmpDir w.fs e he
    refine ⟨hname, hfresh, ?_, ?_, hgone⟩
    · rw [hfs1]
      simp [fsExists]
    · cases hex : fsExists w1.fs tmpDir with
      | false => rfl
      | true =>
        exfalso
        unfold fsExists at hex
        rw [List.any_eq_true] at hex
        obtain ⟨e, he, heq⟩ := hex
        have h1 := hgone e he
        have h2 : e.1 = tmpDir := by simpa using heq
        rw [h2, isUnder_self] at h1
        exact absurd h1 (by simp)
  · intro e hwd
    unfold Reflect at hret
    simp only [if_true, hwd, Prod.mk.injEq] at hret
    exact hret.2.symm

theorem Reflect_no_leaked_workspace_witness :
    Reflect (demoHost failedBuild goodRun) "io".toList ["Reader".toList] [] false [] demoWorld =
      (.returned (.error
          "exit status 1 caused by:\n./prog.go:17:30: syntax error".toList),
        demoWorldAfterBuild) ∧
    listing demoWorld.fs ["work".toList] = ["a.go".toList, ".tmp_gomock_reflect_7".toList] ∧
    listing demoWorldAfterBuild.fs ["work".toList] = listing demoWorld.fs ["work".toList] :=
  ⟨by decide, by decide,
   (Reflect_no_leaked_workspace (demoHost failedBuild goodRun) "io".toList ["Reader".toList]
      false [] demoWorld demoWorldAfterBuild
      (.error "exit status 1 caused by:\n./prog.go:17:30: syntax error".toList)
      (by decide)).1 ["work".toList] rfl⟩

/-! ## Program-only mode, build failure, interface order -/

theorem reflectInWorkspace_progOnly_procs (h : Host) (importPath : Str) (symbols : List Str)
    (outPath tmpDir : Path) (w : World) :
    (reflectInWorkspace h importPath symbols true outPath tmpDir w).2.procs = w.procs := by
  unfold reflectInWorkspace
  cases h.executeErr with
  | some e => rfl
  | none =>
    simp only [if_true]
    by_cases ho : outPath = []
    · simp [ho]
    · simp only [ne_eq, ho, not_false_eq_true, if_true]
      cases h.writeFileErr outPath <;> rfl

/-- C8 (as the code has it): a call of Reflect with progOnly set and an empty
progPath starts no process at all (no build, no binary run); when the working
directory, the workspace and the rendering succeed, it ends the process with
`os.Exit(0)` right after emitting the rendered program: appended to the standard
output when outPath is empty, written to the file outPath (if that write succeeds)
otherwise, the standard output then untouched. -/
theorem Reflect_progOnly (h : Host) (importPath : Str) (symbols : List Str) (outPath : Path)
    (w : World) :
    (Reflect h importPath symbols [] true outPath w).2.procs = w.procs ∧
    (∀ workingDir tmpDir fs1, h.Getwd = .ok workingDir →
      TempDir h workingDir ".tmp_gomock_reflect_".toList w.fs = (.ok tmpDir, fs1) →
      h.executeErr = none →
      (outPath = [] →
        Reflect h importPath symbols [] true outPath w =
          (.exited 0,
            { w with fs := fs1,
                     stdout := w.stdout ++ reflectProgram h.quote importPath symbols })) ∧
      (outPath ≠ [] → h.writeFileErr outPath = none →
        Reflect h importPath symbols [] true outPath w =
          (.exited 0,
            { w with
              fs := (fsWriteFile fs1 outPath (reflectProgram h.quote importPath symbols)) }))) := by
  refine ⟨?_, ?_⟩
  · unfold Reflect
    simp only [if_true]
    cases h.Getwd with
    | error e => rfl
    | ok workingDir =>
      simp only
      cases htmp : TempDir h workingDir ".tmp_gomock_reflect_".toList w.fs with
      | mk res fs1 =>
        cases res with
        | error e => rfl
        | ok tmpDir =>
          simp only
          have hp := reflectInWorkspace_progOnly_procs h importPath symbols outPath tmpDir
            { w with fs := fs1 }
          cases hin : reflectInWorkspace h importPath symbols true outPath tmpDir
              { w with fs := fs1 } with
          | mk en w2 =>
            rw [hin] at hp
            cases en with
            | exited c => exact hp
            | returned r => exact hp
  · intro workingDir tmpDir fs1 hwd htmp hexec
    refine ⟨?_, ?_⟩
    · intro ho
      subst ho
      unfold Reflect
      simp only [if_true, hwd, htmp]
      unfold reflectInWorkspace
      simp only [hexec, if_true, ne_eq, not_true_eq_false, if_false]
    · intro ho hwrite
      unfold Reflect
      simp only [if_true, hwd, htmp]
      unfold reflectInWorkspace
      simp only [hexec, if_true, ne_eq, ho, not_false_eq_true, hwrite]

theorem Reflect_progOnly_witness :
    Reflect (demoHost goodBuild goodRun) "io".toList ["Reader".toList] [] true [] demoWorld =
      (.exited 0,
        { demoWorld with
          fs := demoWorld.fs ++ [(["work".toList, ".tmp_gomock_reflect_77".toList], Node.dir)],
          stdout := reflectProgram (demoHost goodBuild goodRun).quote "io".toList
            ["Reader".toList] }) :=
  ((Reflect_progOnly (demoHost goodBuild goodRun) "io".toList ["Reader".toList] []
      demoWorld).2 ["work".toList] ["work".toList, ".tmp_gomock_reflect_77".toList]
      (demoWorld.fs ++ [(["work".toList, ".tmp_gomock_reflect_77".toList], Node.dir)])
      rfl (by decide) rfl).1 rfl

/-- C8 fails as stated: with progOnly set and the pre-built binary `prog.bin` given as
progPath, Reflect runs that binary, emits no program text and returns the decoded
package instead of ending the process. -/
theorem Reflect_progOnly_counterexample :
    Reflect (demoHost goodBuild goodRun) "io".toList ["Reader".toList] ["prog.bin".toList]
        true [] demoWorld =
      (.returned (.ok demoPackage), { demoWorld with procs := [Proc.run ["prog.bin".toList]] }) := by
  decide

/-- C9: in a call of Reflect with an empty progPath and progOnly unset in which the
workspace is created, the program is rendered and written, and the build command fails
with error `e` after writing `s` to its error stream, Reflect returns the error
`e + " caused by:\n" + s` and no package, and the only process started is the build
(`go build -o <binary> prog.go` in the workspace): the binary is not executed. -/
theorem Reflect_build_failure (h : Host) (importPath : Str) (symbols : List Str)
    (outPath : Path) (w : World) (workingDir tmpDir : Path) (fs1 : FS) (e : Str)
    (hwd : h.Getwd = .ok workingDir)
    (htmp : TempDir h workingDir ".tmp_gomock_reflect_".toList w.fs = (.ok tmpDir, fs1))
    (hexec : h.executeErr = none)
    (hwrite : h.writeFileErr (tmpDir ++ ["prog.go".toList]) = none)
    (hbuild : (h.goBuild tmpDir (reflectProgram h.quote importPath symbols)).err = some e) :
    (Reflect h importPath symbols [] false outPath w).1 =
      .returned (.error (e ++ " caused by:\n".toList ++
        (h.goBuild tmpDir (reflectProgram h.quote importPath symbols)).stderr)) ∧
    (Reflect h importPath symbols [] false outPath w).2.procs =
      w.procs ++ [Proc.go tmpDir ["build".toList, "-o".toList, progBinary h, "prog.go".toList]] ∧
    (∀ prog, Proc.run prog ∈ (Reflect h importPath symbols [] false outPath w).2.procs →
      Proc.run prog ∈ w.procs) := by
  have hR : Reflect h importPath symbols [] false outPath w =
      (.returned (.error (e ++ " caused by:\n".toList ++
          (h.goBuild tmpDir (reflectProgram h.quote importPath symbols)).stderr)),
        { w with
          fs := RemoveAll tmpDir
            ((h.goBuild tmpDir (reflectProgram h.quote importPath symbols)).files.foldl
              (fun fs f => fsWriteFile fs (tmpDir ++ [f.1]) f.2)
              (fsWriteFile fs1 (tmpDir ++ ["prog.go".toList])
                (reflectProgram h.quote importPath symbols))),
          procs := w.procs ++
            [Proc.go tmpDir ["build".toList, "-o".toList, progBinary h, "prog.go".toList]] }) := by
    unfold Reflect
    simp only [if_true, hwd, htmp]
    unfold reflectInWorkspace
    simp only [hexec, hwrite, hbuild, Bool.false_eq_true, if_false]
  rw [hR]
  refine ⟨rfl, rfl, ?_⟩
  intro prog hmem
  simpa using hmem

theorem Reflect_build_failure_witness :
    (Reflect (demoHost failedBuild goodRun) "io".toList ["Reader".toList] [] false []
        demoWorld).1 =
      .returned (.error "exit status 1 caused by:\n./prog.go:17:30: syntax error".toList) ∧
    (Reflect (demoHost failedBuild goodRun) "io".toList ["Reader".toList] [] false []
        demoWorld).2.procs =
      [Proc.go ["work".toList, ".tmp_gomock_reflect_77".toList]
        ["build".toList, "-o".toList, "prog.bin".toList, "prog.go".toList]] :=
  have hthm := Reflect_build_failure (demoHost failedBuild goodRun) "io".toList
    ["Reader".toList] [] demoWorld ["work".toList]
    ["work".toList, ".tmp_gomock_reflect_77".toList]
    (demoWorld.fs ++ [(["work".toList, ".tmp_gomock_reflect_77".toList], Node.dir)])
    "exit status 1".toList rfl (by decide) rfl rfl rfl
  ⟨hthm.1.trans (by decide), hthm.2.1.trans (by decide)⟩

theorem expect_append (lit rest : Str) : expect lit (lit ++ rest) = some rest := by
  induction lit with
  | nil => cases rest <;> rfl
  | cons c cs ih => simp [expect, ih]

theorem isIdentChar_close {τ : Type} (tc : Toolchain τ) : isIdentChar tc ')' = false := rfl

theorem entryClose_eq : entryClose = ')' :: entryClose.drop 1 := by decide

theorem expect_entryOpen_programPkg (rest : Str) :
    expect entryOpen (programPkg ++ rest) = none := by
  rfl

theorem isIdentifier_all {τ : Type} (tc : Toolchain τ) (s : Str)
    (h : isIdentifier tc s = true) : ∀ c ∈ s, isIdentChar tc c = true := by
  cases s with
  | nil => simp [isIdentifier] at h
  | cons c cs =>
    simp only [isIdentifier, Bool.and_eq_true, List.all_eq_true] at h
    exact h.2

theorem parseEntry_programSymbol {τ : Type} (tc : Toolchain τ) (quote : Str → Str)
    (s rest : Str)
    (hq : ∀ r, tc.unquote (quote s ++ r) = some (s, r))
    (hid : isIdentifier tc s = true) :
    parseEntry tc (programSymbol quote s ++ rest) = some ((s, s), rest) := by
  have hall := isIdentifier_all tc s hid
  have hshape : programSymbol quote s ++ rest =
      entryOpen ++ (quote s ++ (entryMid ++ (s ++ (entryClose ++ rest)))) := by
    simp [programSymbol, List.append_assoc]
  have hc : entryClose ++ rest = ')' :: (entryClose.drop 1 ++ rest) :=
    congrArg (fun l => l ++ rest) entryClose_eq
  have htake : (s ++ (entryClose ++ rest)).takeWhile (isIdentChar tc) = s := by
    rw [List.takeWhile_append_of_pos hall, hc]
    simp [isIdentChar_close]
  have hdrop : (s ++ (entryClose ++ rest)).dropWhile (isIdentChar tc) = entryClose ++ rest := by
    rw [List.dropWhile_append_of_pos hall, hc]
    simp [isIdentChar_close]
  unfold parseEntry
  rw [hshape, expect_append]
  simp only [hq, expect_append, htake, hdrop, hid, if_true]

theorem parseEntries_programSymbols {τ : Type} (tc : Toolchain τ) (quote : Str → Str)
    (rest : Str) :
    ∀ (symbols : List Str) (fuel : Nat), symbols.length < fuel →
      (∀ s ∈ symbols, (∀ r, tc.unquote (quote s ++ r) = some (s, r)) ∧
        isIdentifier tc s = true) →
      parseEntries tc fuel ((symbols.map (programSymbol quote)).flatten ++ (programPkg ++ rest)) =
        some (symbols.map (fun s => (s, s)), programPkg ++ rest) := by
  intro symbols
  induction symbols with
  | nil =>
    intro fuel hf _
    cases fuel with
    | zero => simp at hf
    | succ k =>
      simp only [List.map_nil, List.flatten_nil, List.nil_append]
      unfold parseEntries
      rw [expect_entryOpen_programPkg]
  | cons s ss ih =>
    intro fuel hf hs
    cases fuel with
    | zero => simp at hf
    | succ k =>
      obtain ⟨hq, hid⟩ := hs s (List.mem_cons_self _ _)
      have hk : ss.length < k := by simpa using hf
      have ih2 := ih k hk (fun s2 h2 => hs s2 (List.mem_cons_of_mem _ h2))
      simp only [List.map_cons, List.flatten_cons, List.append_assoc]
      unfold parseEntries
      have hopen : expect entryOpen
          (programSymbol quote s ++
            ((ss.map (programSymbol quote)).flatten ++ (programPkg ++ rest))) =
          some (quote s ++ (entryMid ++ (s ++ (entryClose ++
            ((ss.map (programSymbol quote)).flatten ++ (programPkg ++ rest)))))) := by
        have : programSymbol quote s ++
            ((ss.map (programSymbol quote)).flatten ++ (programPkg ++ rest)) =
            entryOpen ++ (quote s ++ (entryMid ++ (s ++ (entryClose ++
              ((ss.map (programSymbol quote)).flatten ++ (programPkg ++ rest)))))) := by
          simp [programSymbol, List.append_assoc]
        rw [this, expect_append]
      rw [hopen]
      simp only [parseEntry_programSymbol tc quote s _ hq hid, ih2]

theorem length_le_flatten_programSymbol (quote : Str → Str) :
    ∀ symbols : List Str,
      symbols.length ≤ ((symbols.map (programSymbol quote)).flatten).length := by
  intro symbols
  induction symbols with
  | nil => simp
  | cons s ss ih =>
    have h1 : 1 ≤ (programSymbol quote s).length := by
      have : entryOpen.length = 5 := by decide
      simp only [programSymbol, List.length_append, this]
      omega
    simp only [List.map_cons, List.flatten_cons, List.length_append, List.length_cons]
    omega

theorem parseProgram_reflectProgram {τ : Type} (tc : Toolchain τ) (quote : Str → Str)
    (importPath : Str) (symbols : List Str)
    (hqi : ∀ r, tc.unquote (quote importPath ++ r) = some (importPath, r))
    (hs : ∀ s ∈ symbols, (∀ r, tc.unquote (quote s ++ r) = some (s, r)) ∧
      isIdentifier tc s = true) :
    parseProgram tc (reflectProgram quote importPath symbols) =
      some (importPath, symbols.map (fun s => (s, s)), importPath) := by
  have hshape : reflectProgram quote importPath symbols =
      programHead ++ (quote importPath ++ (programIts ++
        ((symbols.map (programSymbol quote)).flatten ++
          (programPkg ++ (quote importPath ++ programTail))))) := by
    simp [reflectProgram, List.append_assoc]
  have hfuel : symbols.length <
      ((symbols.map (programSymbol quote)).flatten ++
        (programPkg ++ (quote importPath ++ programTail))).length + 1 := by
    have := length_le_flatten_programSymbol quote symbols
    simp only [List.length_append]
    omega
  unfold parseProgram
  rw [hshape, expect_append]
  simp only [hqi, expect_append,
    parseEntries_programSymbols tc quote _ symbols _ hfuel hs, if_true]

theorem resolve_collect {τ : Type} (tc : Toolchain τ) (importPath : Str) :
    ∀ (symbols : List Str) (acc : List Interface),
      (∀ s ∈ symbols, ∃ typ walked, tc.typeOf importPath s = some typ ∧
        tc.InterfaceFromInterfaceType typ = .ok walked) →
      ∃ its out, resolveIts (tc.typeOf importPath) (symbols.map (fun s => (s, s))) = some its ∧
        collectInterfaces tc.InterfaceFromInterfaceType its acc = .ok (acc ++ out) ∧
        List.Forall₂ (BuiltFrom tc importPath) symbols out := by
  intro symbols
  induction symbols with
  | nil =>
    intro acc _
    exact ⟨[], [], rfl, by simp [collectInterfaces], List.Forall₂.nil⟩
  | cons s ss ih =>
    intro acc hres
    obtain ⟨typ, walked, ht, hw⟩ := hres s (List.mem_cons_self _ _)
    obtain ⟨its, out, h1, h2, h3⟩ :=
      ih (acc ++ [{ walked with Name := s }]) (fun s2 h2 => hres s2 (List.mem_cons_of_mem _ h2))
    refine ⟨(s, typ) :: its, { walked with Name := s } :: out, ?_, ?_, ?_⟩
    · simp only [List.map_cons, resolveIts, ht, h1]
    · unfold collectInterfaces
      simp only [hw, h2, List.append_assoc, List.singleton_append]
    · exact List.Forall₂.cons ⟨typ, walked, ht, hw, rfl⟩ h3

theorem names_of_BuiltFrom {τ : Type} (tc : Toolchain τ) (importPath : Str) :
    ∀ (symbols : List Str) (out : List Interface),
      List.Forall₂ (BuiltFrom tc importPath) symbols out →
      out.map (fun intf => intf.Name) = symbols := by
  intro symbols out h
  induction h with
  | nil => rfl
  | cons hab _ ih =>
    obtain ⟨typ, walked, _, _, hi⟩ := hab
    rw [List.map_cons, ih, hi]

/-- C10: for an import path and symbols that the compiler reads back from their `%q`
form, each symbol an identifier that names a type of the package which the method-set
walker accepts as an interface, the program rendered from reflectProgram is read as
one entry of `its` per symbol, and every package built by its `main` is named
`path.Base(importPath)` and has exactly one interface per symbol, in the order of the
symbols, the i-th being the walked interface of the i-th symbol under that symbol as
its name; a call of Reflect whose toolchain builds this program and whose binary
prints what the decoder reads as the package built by `main` returns that package.
For a non-empty list the program compiles and `main` builds such a package; for the
empty list it does not compile (`pkg_` is imported and not used). -/
theorem rendered_program_interfaces {τ : Type} (tc : Toolchain τ) (h : Host)
    (importPath : Str) (symbols : List Str)
    (hqi : ∀ r, tc.unquote (h.quote importPath ++ r) = some (importPath, r))
    (hqs : ∀ s ∈ symbols, ∀ r, tc.unquote (h.quote s ++ r) = some (s, r))
    (hres : ∀ s ∈ symbols, isIdentifier tc s = true ∧
      ∃ typ walked, tc.typeOf importPath s = some typ ∧
        tc.InterfaceFromInterfaceType typ = .ok walked) :
    parseProgram tc (reflectProgram h.quote importPath symbols) =
      some (importPath, symbols.map (fun s => (s, s)), importPath) ∧
    (∀ pkg : Package,
      runProgram tc (reflectProgram h.quote importPath symbols) = some (.ok pkg) →
      pkg.Name = pathBase importPath ∧
      pkg.Interfaces.map (fun intf => intf.Name) = symbols ∧
      pkg.Interfaces.length = symbols.length ∧
      List.Forall₂ (BuiltFrom tc importPath) symbols pkg.Interfaces ∧
      (∀ (w : World) (outPath workingDir tmpDir : Path) (fs1 : FS),
        h.Getwd = .ok workingDir →
        TempDir h workingDir ".tmp_gomock_reflect_".toList w.fs = (.ok tmpDir, fs1) →
        h.executeErr = none →
        h.writeFileErr (tmpDir ++ ["prog.go".toList]) = none →
        ((runProgram tc (reflectProgram h.quote importPath symbols)).isSome = true →
          (h.goBuild tmpDir (reflectProgram h.quote importPath symbols)).err = none) →
        (∀ built, runProgram tc (reflectProgram h.quote importPath symbols) =
            some (.ok built) →
          ∀ fs, (h.run (tmpDir ++ [progBinary h]) fs).err = none ∧
            h.gobDecode (h.run (tmpDir ++ [progBinary h]) fs).stdout = .ok built) →
        (Reflect h importPath symbols [] false outPath w).1 = .returned (.ok pkg))) ∧
    (symbols ≠ [] →
      ∃ pkg : Package,
        runProgram tc (reflectProgram h.quote importPath symbols) = some (.ok pkg)) ∧
    (symbols = [] → runProgram tc (reflectProgram h.quote importPath symbols) = none) := by
  have hparse := parseProgram_reflectProgram tc h.quote importPath symbols hqi
    (fun s hs => ⟨hqs s hs, (hres s hs).1⟩)
  have hnone : symbols = [] →
      runProgram tc (reflectProgram h.quote importPath symbols) = none := by
    intro hnil
    subst hnil
    unfold runProgram
    rw [hparse]
    rfl
  obtain ⟨its, out, h1, h2, h3⟩ := resolve_collect tc importPath symbols []
    (fun s hs => (hres s hs).2)
  have hrun : symbols ≠ [] → runProgram tc (reflectProgram h.quote importPath symbols) =
      some (.ok { Name := pathBase importPath, Interfaces := out }) := by
    intro hne
    unfold runProgram
    rw [hparse]
    have hemp : (symbols.map (fun s => (s, s))).isEmpty = false := by
      cases symbols with
      | nil => exact absurd rfl hne
      | cons a as => rfl
    simp only [hemp, h1, h2, List.nil_append, Bool.false_eq_true, if_false]
  refine ⟨hparse, ?_, fun hne => ⟨_, hrun hne⟩, hnone⟩
  intro pkg hpkg
  have hne : symbols ≠ [] := by
    intro hnil
    rw [hnone hnil] at hpkg
    exact absurd hpkg (by simp)
  have heq : pkg = { Name := pathBase importPath, Interfaces := out } := by
    rw [hrun hne] at hpkg
    simpa using hpkg.symm
  subst heq
  refine ⟨rfl, names_of_BuiltFrom tc importPath symbols out h3, h3.length_eq.symm, h3, ?_⟩
  intro w outPath workingDir tmpDir fs1 hwd htmp hexec hwrite hbuild hbin
  have hb := hbuild (by rw [hrun hne]; rfl)
  have hr := hbin _ (hrun hne)
  unfold Reflect
  simp only [if_true, hwd, htmp]
  unfold reflectInWorkspace
  simp only [hexec, hwrite, hb, Bool.false_eq_true, if_false]
  unfold runAndDecode
  simp only [(hr _).1, (hr _).2]

set_option maxRecDepth 1000000 in
theorem rendered_program_interfaces_witness :
    runProgram demoToolchain
        (reflectProgram ioHost.quote "example.com/io".toList ["Reader".toList, "Writer".toList]) =
      some (.ok ioPackage) ∧
    ioPackage.Interfaces.map (fun intf => intf.Name) = ["Reader".toList, "Writer".toList] ∧
    (Reflect ioHost "example.com/io".toList ["Reader".toList, "Writer".toList] [] false []
        demoWorld).1 = .returned (.ok ioPackage) :=
  have hrun : runProgram demoToolchain
      (reflectProgram ioHost.quote "example.com/io".toList ["Reader".toList, "Writer".toList]) =
      some (.ok ioPackage) := by decide
  have hthm := (rendered_program_interfaces demoToolchain ioHost "example.com/io".toList
    ["Reader".toList, "Writer".toList]
    (fun _ => rfl)
    (by
      intro s hs
      rcases List.mem_cons.mp hs with h1 | h2
      · subst h1; exact fun _ => rfl
      · rcases List.mem_cons.mp h2 with h3 | h4
        · subst h3; exact fun _ => rfl
        · exact absurd h4 (List.not_mem_nil _))
    (by
      intro s hs
      rcases List.mem_cons.mp hs with h1 | h2
      · subst h1; exact ⟨by decide, _, _, rfl, rfl⟩
      · rcases List.mem_cons.mp h2 with h3 | h4
        · subst h3; exact ⟨by decide, _, _, rfl, rfl⟩
        · exact absurd h4 (List.not_mem_nil _))).2.1 ioPackage hrun
  ⟨hrun, hthm.2.1,
    hthm.2.2.2.2 demoWorld [] ["work".toList]
      ["work".toList, ".tmp_gomock_reflect_77".toList]
      (demoWorld.fs ++ [(["work".toList, ".tmp_gomock_reflect_77".toList], Node.dir)])
      rfl (by decide) rfl rfl (fun _ => rfl)
      (fun built hb fs => by
        rw [hrun] at hb
        have hbp : ioPackage = built := by simpa using hb
        rw [← hbp]
        exact ⟨rfl, rfl⟩)⟩

set_option maxRecDepth 1000000 in
/-- No package for an empty list of symbols: the rendered program has no entry in
`its`, `pkg_` is imported and not used, and the build fails. -/
theorem rendered_program_no_symbols :
    runProgram demoToolchain (reflectProgram ioHost.quote "example.com/io".toList []) = none := by
  decide

end Pegomock
